import Mathlib

/-!
# Claim Verification and Citation Engine — verification development

Shallow embedding of the claim-verification / citation engine of the
`agent-content-pipeline` repository (`src/fact_check_agent/agent.py` and
`src/citation_agent/agent.py`) together with proofs and refutations of the
frozen specification claims.

Modelling conventions:
* Python `str` is modelled as `List Char` (`Str`); Python string slicing,
  `find`, `strip`, `split` and `in` are modelled by executable functions below.
* Python `float` arithmetic is modelled by exact rational arithmetic over `ℚ`.
  Every constant appearing in the source (0.3, 0.35, 0.7, …) is an exact
  decimal; all concrete evaluations in this file stay far away from binary
  rounding boundaries, so the idealisation does not change any compared value.
* Python `round(x, 3)` (correctly-rounded, ties to even) is modelled by
  `round3` (round half to even on `x * 1000`).
* `re` patterns are modelled by an executable backtracking engine over a small
  regex AST covering exactly the constructs used by the two agents
  (character classes, greedy/lazy repetition, alternation, word boundaries,
  end anchors), with Python's leftmost-match and backtracking-priority
  semantics.  `re.finditer` is modelled by `findSpans`.
* `difflib.SequenceMatcher(None, a, b).ratio()` is modelled by
  `similarityScore` implementing difflib's longest-matching-block recursion
  (no junk; `autojunk` only activates for `len(b) ≥ 200` and every text this
  development evaluates on is shorter).
* `time.time()` timestamps and `datetime.now()` renderings carry no logical
  content; result metadata keeps only the fields the claims talk about, and
  bibliography date strings are taken from an explicit `NowParams` argument.
* Python `list(set(xs))` iterates a hash set in unspecified order; it is
  modelled as first-occurrence de-duplication (`dedupFirst`).  No theorem in
  this file depends on that order: wherever a de-duplicated list is consumed,
  the evaluated inputs make the consuming fold order-insensitive.
-/

/-- Python `str` as a list of characters. -/
abbrev Str := List Char

/-- Turn a Lean string literal into the `Str` model. -/
def strL (s : String) : Str := s.data

/-- Python `\s` (ASCII fragment, all inputs in this development are ASCII). -/
def isSpaceChar (c : Char) : Bool :=
  c = ' ' || c = '\t' || c = '\n' || c = '\r' || c = '\x0b' || c = '\x0c'

/-- Python `\w` (ASCII fragment): letters, digits, underscore. -/
def isWordChar (c : Char) : Bool :=
  c.isAlpha || c.isDigit || c = '_'

/-- Python `text.lower()` on the character list. -/
def toLowerStr (s : Str) : Str := s.map Char.toLower

/-- Python `str.strip()` (default whitespace strip on both ends). -/
def strip (s : Str) : Str :=
  ((s.dropWhile isSpaceChar).reverse.dropWhile isSpaceChar).reverse

/-- Python `str.split()` — split on whitespace runs, dropping empty parts. -/
def splitWhite (s : Str) : List Str :=
  (s.splitOnP isSpaceChar).filter (fun w => w ≠ [])

/-- Python `needle in haystack` for strings (substring containment). -/
def isSubstrOf (needle haystack : Str) : Bool :=
  (List.range (haystack.length + 1)).any
    (fun i => needle.isPrefixOf (haystack.drop i))

/-- Python `haystack.find(c, start)`: index of first occurrence of the
character `c` at or after `start`, if any (`-1` is modelled by `none`). -/
def findCharFrom (s : Str) (c : Char) (start : Nat) : Option Nat :=
  (List.range s.length).find? (fun i => start ≤ i && s.get? i = some c)

/-- Python `s[:i] + t + s[i:]` (slice semantics clamp `i` to the length). -/
def insertAt (s : Str) (i : Nat) (m : Str) : Str :=
  s.take i ++ m ++ s.drop i

/-- Remove `n` characters at index `i` — the inverse of `insertAt`. -/
def removeAt (s : Str) (i n : Nat) : Str :=
  s.take i ++ s.drop (i + n)

/-- Python `list(set(xs))` modelled as first-occurrence de-duplication. -/
def dedupFirst {α : Type} [DecidableEq α] : List α → List α
  | [] => []
  | x :: xs => x :: (dedupFirst xs).filter (fun y => y ≠ x)

/-- Distance between two natural-number offsets, `abs(a - b)` on Python ints. -/
def distNat (a b : Nat) : Nat := max a b - min a b

/-- Round half to even (Python's `round`) of a rational to an integer.
`x.num / x.den` is `⌊x⌋` (`Rat.floor_eq_div`), written out so that the kernel
can evaluate it. -/
def roundHalfEven (x : ℚ) : ℤ :=
  let f : ℤ := x.num / (x.den : ℤ)
  let r : ℚ := x - f
  if r < 1/2 then f
  else if 1/2 < r then f + 1
  else if f % 2 = 0 then f else f + 1

/-- Python `round(x, 3)` on the exact-rational model. -/
def round3 (x : ℚ) : ℚ := (roundHalfEven (x * 1000) : ℚ) / 1000

/-! ## Regex engine

A small backtracking engine with Python `re` semantics for the constructs the
two agents use.  `matchRE` is continuation-passing: alternatives are tried in
Python's priority order (greedy repetition prefers longer, lazy prefers
shorter, alternation prefers the left branch) and the first end position whose
continuation succeeds is returned.  The `fuel` argument only bounds recursion
depth; every repetition body in the agents' patterns consumes at least one
character, so the generous fuel used below is never exhausted. -/

/-- Regex AST: exactly the constructs appearing in the agents' patterns. -/
inductive RE where
  | eps : RE
  | cls : (Char → Bool) → RE
  | seq : RE → RE → RE
  | alt : RE → RE → RE
  | starG : RE → RE
  | starL : RE → RE
  | optG : RE → RE
  | wb : RE
  | eol : RE

/-- Is the character at index `i` a word character (`false` out of range)? -/
def wordAt (s : Str) (i : Nat) : Bool :=
  match s.get? i with
  | some c => isWordChar c
  | none => false

/-- Python `\b`: word-ness differs between the two sides of position `i`. -/
def wordBoundary (s : Str) (i : Nat) : Bool :=
  (if i = 0 then false else wordAt s (i - 1)) != wordAt s i

/-- Python `$`: end of string, or just before a final newline. -/
def atEol (s : Str) (i : Nat) : Bool :=
  i = s.length || (i + 1 = s.length && s.get? i = some '\n')

/-- Backtracking matcher.  `matchRE fuel r s i k` tries to match `r` in `s`
starting at position `i` and calls the continuation `k` on each candidate end
position in priority order, returning the first success. -/
def matchRE : Nat → RE → Str → Nat → (Nat → Option Nat) → Option Nat
  | 0, _, _, _, _ => none
  | _ + 1, .eps, _, i, k => k i
  | _ + 1, .cls p, s, i, k =>
    match s.get? i with
    | some c => if p c then k (i + 1) else none
    | none => none
  | fuel + 1, .seq r1 r2, s, i, k =>
    matchRE fuel r1 s i (fun j => matchRE fuel r2 s j k)
  | fuel + 1, .alt r1 r2, s, i, k =>
    (matchRE fuel r1 s i k).orElse (fun _ => matchRE fuel r2 s i k)
  | fuel + 1, .optG r, s, i, k =>
    (matchRE fuel r s i k).orElse (fun _ => k i)
  | fuel + 1, .starG r, s, i, k =>
    (matchRE fuel r s i
        (fun j => if i < j then matchRE fuel (.starG r) s j k else none)).orElse
      (fun _ => k i)
  | fuel + 1, .starL r, s, i, k =>
    (k i).orElse
      (fun _ => matchRE fuel r s i
        (fun j => if i < j then matchRE fuel (.starL r) s j k else none))
  | _ + 1, .wb, s, i, k => if wordBoundary s i then k i else none
  | _ + 1, .eol, s, i, k => if atEol s i then k i else none

/-- Fuel that safely dominates the recursion depth of any match attempt of the
agents' patterns: nesting depth of the AST plus one star iteration per
character, with a wide margin. -/
def reFuel (s : Str) : Nat := 200 * (s.length + 5)

/-- First match end at fixed start `i`, by backtracking priority. -/
def matchEndAt (r : RE) (s : Str) (i : Nat) : Option Nat :=
  matchRE (reFuel s) r s i (fun j => some j)

/-- Leftmost match at or after `from_`: Python's scanning loop. -/
def scanFrom (r : RE) (s : Str) : Nat → Nat → Option (Nat × Nat)
  | 0, _ => none
  | fuel + 1, i =>
    if i > s.length then none
    else match matchEndAt r s i with
      | some e => some (i, e)
      | none => scanFrom r s fuel (i + 1)

/-- All matches of `re.finditer`: successive leftmost non-overlapping spans
(empty matches advance the scan position by one, as in Python). -/
def findSpansFrom (r : RE) (s : Str) : Nat → Nat → List (Nat × Nat)
  | 0, _ => []
  | fuel + 1, i =>
    match scanFrom r s (s.length + 2 - i) i with
    | some (b, e) =>
      (b, e) :: findSpansFrom r s fuel (if b < e then e else e + 1)
    | none => []

/-- Spans of all matches of `r` in `s` (Python `re.finditer`). -/
def findSpans (r : RE) (s : Str) : List (Nat × Nat) :=
  findSpansFrom r s (s.length + 2) 0

/-- The substring of a span. -/
def spanText (s : Str) (sp : Nat × Nat) : Str :=
  (s.take sp.2).drop sp.1

/-- Python `re.findall` for patterns without capture groups. -/
def findAllStr (r : RE) (s : Str) : List Str :=
  (findSpans r s).map (spanText s)

/-- Python `re.match(pattern, s)` (anchored at the start): does a match
starting at position 0 exist? -/
def matchesAtStart (r : RE) (s : Str) : Bool :=
  (matchEndAt r s 0).isSome

/-! ### Pattern combinators -/

/-- Case-insensitive literal (all patterns are compiled with `re.IGNORECASE`);
`c` is given in lowercase. -/
def litCI (c : Char) : RE := .cls (fun x => x.toLower = c)

/-- Case-sensitive single character. -/
def litEx (c : Char) : RE := .cls (fun x => x = c)

/-- Sequence of a list of regexes. -/
def seqAll (rs : List RE) : RE := rs.foldr RE.seq .eps

/-- Case-insensitive literal word. -/
def strCI (w : String) : RE := seqAll (w.data.map litCI)

/-- Alternation `(?:w1|w2|…)` over literal words, left-to-right priority. -/
def anyOfCI (ws : List String) : RE :=
  match ws with
  | [] => .eps
  | [w] => strCI w
  | w :: rest => .alt (strCI w) (anyOfCI rest)

/-- Pattern `[^.]` -/
def noDot : RE := .cls (fun c => c ≠ '.')

/-- Pattern `\d` -/
def digitC : RE := .cls Char.isDigit

/-- Pattern `\s` -/
def spaceC : RE := .cls isSpaceChar

/-- Pattern `\d+` -/
def digits1 : RE := .seq digitC (.starG digitC)

/-- Pattern `(?:\.\d+)?` -/
def optFrac : RE := .optG (.seq (litEx '.') digits1)

/-- Pattern `\s+` -/
def spaces1 : RE := .seq spaceC (.starG spaceC)

/-- Pattern `20\d{2}` -/
def year20 : RE := seqAll [litCI '2', litCI '0', digitC, digitC]

/-! ## `difflib.SequenceMatcher` (no junk, `autojunk` inactive: every text this
development evaluates similarity on has fewer than 200 characters, below the
`autojunk` activation threshold). -/

/-- Python `b2j`: ascending list of positions of `c` in `b`. -/
def b2jIdx (b : Str) (c : Char) : List Nat :=
  (List.range b.length).filter (fun j => b.get? j = some c)

/-- Best matching block candidate: `(besti, bestj, bestsize)`. -/
structure FLMState where
  besti : Nat
  bestj : Nat
  bestsize : Nat
deriving Repr, DecidableEq

/-- Python `j2len.get(k, 0)` on the association-list model of the dict. -/
def lookupD (l : List (Nat × Nat)) (k : Nat) : Nat :=
  match l.find? (fun p => p.1 = k) with
  | some p => p.2
  | none => 0

/-- One row of `find_longest_match`'s dynamic programming: fold the candidate
`j` positions (already restricted to `blo ≤ j < bhi`; the list is ascending so
Python's `continue`/`break` pair is exactly this restriction) building
`newj2len` and updating the best block. -/
def flmRow (i : Nat) (js : List Nat) (j2len : List (Nat × Nat))
    (st : FLMState) : (List (Nat × Nat)) × FLMState :=
  js.foldl
    (fun acc j =>
      -- `j2len.get(j-1, 0) + 1`; for `j = 0` Python looks up key `-1`,
      -- which is never present, so the chain length restarts at 1
      let k := (if j = 0 then 0 else lookupD j2len (j - 1)) + 1
      -- `(i-k+1, j-k+1)`: a chain of length `k` ends at `(i, j)`, so
      -- `k ≤ i+1` and `k ≤ j+1`; written `i+1-k` to avoid `ℕ` truncation
      let st' := if k > acc.2.bestsize
        then ⟨i + 1 - k, j + 1 - k, k⟩ else acc.2
      (acc.1 ++ [(j, k)], st'))
    ([], st)

/-- The dynamic-programming part of `find_longest_match`. -/
def flmRows (a b : Str) (alo ahi blo bhi : Nat) : FLMState :=
  ((List.range' alo (ahi - alo)).foldl
    (fun acc i =>
      let js := ((b2jIdx b ((a.get? i).getD ' ')).filter
          (fun j => blo ≤ j)).takeWhile (fun j => j < bhi)
      flmRow i js acc.1 acc.2)
    ([], ⟨alo, blo, 0⟩)).2

/-- Characters at two positions exist and are equal. -/
def charsEq (a : Str) (i : Nat) (b : Str) (j : Nat) : Bool :=
  match a.get? i, b.get? j with
  | some x, some y => x = y
  | _, _ => false

/-- The first `while` loop of `find_longest_match`: extend the best block to
the left over equal (non-junk — there is no junk) characters. -/
def extLeft (a b : Str) (alo blo : Nat) : Nat → FLMState → FLMState
  | 0, st => st
  | fuel + 1, st =>
    if alo < st.besti && blo < st.bestj &&
        charsEq a (st.besti - 1) b (st.bestj - 1) then
      extLeft a b alo blo fuel ⟨st.besti - 1, st.bestj - 1, st.bestsize + 1⟩
    else st

/-- The second `while` loop: extend the best block to the right. -/
def extRight (a b : Str) (ahi bhi : Nat) : Nat → FLMState → FLMState
  | 0, st => st
  | fuel + 1, st =>
    if st.besti + st.bestsize < ahi && st.bestj + st.bestsize < bhi &&
        charsEq a (st.besti + st.bestsize) b (st.bestj + st.bestsize) then
      extRight a b ahi bhi fuel ⟨st.besti, st.bestj, st.bestsize + 1⟩
    else st

/-- Python `find_longest_match(alo, ahi, blo, bhi)` with no junk: the two junk
extension loops require `isbjunk(...)` and never run. -/
def findLongestMatchD (a b : Str) (alo ahi blo bhi : Nat) : FLMState :=
  extRight a b ahi bhi (ahi + bhi + 1)
    (extLeft a b alo blo (alo + blo + 1) (flmRows a b alo ahi blo bhi))

/-- Total size of all matching blocks: `get_matching_blocks` splits the region
recursively around each longest match; only the sum of block sizes is needed
for `ratio`, and the sum over the recursion tree equals the sum over the
queue-based traversal of difflib. -/
def matchSum (a b : Str) : Nat → Nat → Nat → Nat → Nat → Nat
  | 0, _, _, _, _ => 0
  | fuel + 1, alo, ahi, blo, bhi =>
    let m := findLongestMatchD a b alo ahi blo bhi
    if m.bestsize = 0 then 0
    else
      matchSum a b fuel alo m.besti blo m.bestj + m.bestsize +
        matchSum a b fuel (m.besti + m.bestsize) ahi (m.bestj + m.bestsize) bhi

/-- Python `SequenceMatcher(None, a, b).ratio()`: `2*M/T`, or `1.0` when both
sequences are empty (difflib `_calculate_ratio`). -/
def similarityScore (a b : Str) : ℚ :=
  let T := a.length + b.length
  if T = 0 then 1
  else 2 * (matchSum a b (a.length + 1) 0 a.length 0 b.length : ℚ) / T

/-! ## Fact-check agent: pattern library (`_initialize_claim_patterns`) -/

/-- Pattern `[\d,]` -/
def digitComma : RE := .cls (fun c => c.isDigit || c = ',')

/-- Pattern `(?:billion|million|thousand|k)` -/
def scaleWords : List String := ["billion", "million", "thousand", "k"]

/-- One rule of the pattern library. -/
structure FCPattern where
  name : String
  re : RE
  ptype : String
  priority : Nat

/-- Pattern `([^.]*?\b\d+(?:\.\d+)?%[^.]*?)` — percentage statistics. -/
def fcRE1 : RE :=
  seqAll [.starL noDot, .wb, digits1, optFrac, litCI '%', .starL noDot]

/-- Pattern `([^.]*?\$\d+(?:[\d,]*)?(?:\.\d+)?\s*(?:billion|million|thousand|k)?[^.]*?)` -/
def fcRE2 : RE :=
  seqAll [.starL noDot, litEx '$', digits1, .optG (.starG digitComma), optFrac,
    .starG spaceC, .optG (anyOfCI scaleWords), .starL noDot]

/-- Pattern `([^.]*?(?:grew|increased|decreased|rose|fell|improved|declined)\s+(?:by\s+)?\d+(?:\.\d+)?%[^.]*?)` -/
def fcRE3 : RE :=
  seqAll [.starL noDot,
    anyOfCI ["grew", "increased", "decreased", "rose", "fell", "improved", "declined"],
    spaces1, .optG (.seq (strCI "by") spaces1), digits1, optFrac, litCI '%',
    .starL noDot]

/-- Pattern `([^.]*?(?:market|industry|sector)\s+(?:size|value|worth)[^.]*?\$?\d+[^.]*?)` -/
def fcRE4 : RE :=
  seqAll [.starL noDot, anyOfCI ["market", "industry", "sector"], spaces1,
    anyOfCI ["size", "value", "worth"], .starL noDot, .optG (litEx '$'),
    digits1, .starL noDot]

/-- Pattern `([^.]*?(?:in\s+20\d{2}|during\s+20\d{2}|by\s+20\d{2})[^.]*?)` -/
def fcRE5 : RE :=
  seqAll [.starL noDot,
    .alt (seqAll [strCI "in", spaces1, year20])
      (.alt (seqAll [strCI "during", spaces1, year20])
        (seqAll [strCI "by", spaces1, year20])),
    .starL noDot]

/-- Pattern `([^.]*?(?:study|research|survey|report|analysis)\s+(?:shows|found|indicates|reveals|suggests)[^.]*?)` -/
def fcRE6 : RE :=
  seqAll [.starL noDot,
    anyOfCI ["study", "research", "survey", "report", "analysis"], spaces1,
    anyOfCI ["shows", "found", "indicates", "reveals", "suggests"], .starL noDot]

/-- Pattern `([^.]*?\b\d+(?:[\d,]*)?(?:\.\d+)?\s*(?:users|customers|companies|businesses|people|organizations)[^.]*?)` -/
def fcRE7 : RE :=
  seqAll [.starL noDot, .wb, digits1, .optG (.starG digitComma), optFrac,
    .starG spaceC,
    anyOfCI ["users", "customers", "companies", "businesses", "people", "organizations"],
    .starL noDot]

/-- Pattern `([^.]*?(?:\d+(?:\.\d+)?x|times)\s+(?:more|less|faster|slower|better|worse)[^.]*?)` -/
def fcRE8 : RE :=
  seqAll [.starL noDot,
    .alt (seqAll [digits1, optFrac, litCI 'x']) (strCI "times"), spaces1,
    anyOfCI ["more", "less", "faster", "slower", "better", "worse"], .starL noDot]

/-- Pattern `([^.]*?(?:according to|experts|analysts|researchers)\s+[^.]*?)` -/
def fcRE9 : RE :=
  seqAll [.starL noDot,
    anyOfCI ["according to", "experts", "analysts", "researchers"], spaces1,
    .starL noDot]

/-- The ordered pattern library of the fact-check agent. -/
def fcPatterns : List FCPattern :=
  [⟨"percentage_statistics", fcRE1, "statistic", 1⟩,
   ⟨"financial_figures", fcRE2, "financial", 1⟩,
   ⟨"growth_metrics", fcRE3, "growth", 1⟩,
   ⟨"market_data", fcRE4, "market", 2⟩,
   ⟨"temporal_claims", fcRE5, "temporal", 2⟩,
   ⟨"research_findings", fcRE6, "research", 2⟩,
   ⟨"quantitative_claims", fcRE7, "quantitative", 3⟩,
   ⟨"comparative_claims", fcRE8, "comparative", 3⟩,
   ⟨"expert_attributions", fcRE9, "attribution", 3⟩]

/-! ## Fact-check agent: claim validation and token derivation -/

/-- Pattern `^\s*\d+\.\s*$` (bare numbered-list marker). -/
def invRE1 : RE :=
  seqAll [.starG spaceC, digits1, litEx '.', .starG spaceC, .eol]

/-- Pattern `^\s*[â€¢\-\*]\s*$` (bare bullet; the source file stores the bullet as the
three mojibake characters `â`, `€`, `¢`). -/
def invRE2 : RE :=
  seqAll [.starG spaceC,
    .cls (fun c => c = 'â' || c = '€' || c = '¢' || c = '-' || c = '*'),
    .starG spaceC, .eol]

/-- Pattern `^\s*\([^)]*\)\s*$` (bare parenthetical). -/
def invRE3 : RE :=
  seqAll [.starG spaceC, litEx '(', .starG (.cls (fun c => c ≠ ')')),
    litEx ')', .starG spaceC, .eol]

/-- Pattern `^\s*\[[^\]]*\]\s*$` (bare bracketed text). -/
def invRE4 : RE :=
  seqAll [.starG spaceC, litEx '[', .starG (.cls (fun c => c ≠ ']')),
    litEx ']', .starG spaceC, .eol]

/-- Evidentiary verbs of `_is_valid_claim`. -/
def meaningfulKeywords : List String :=
  ["study", "research", "report", "analysis", "found", "shows", "indicates"]

/-- Python `_is_valid_claim`. -/
def isValidClaim (t : Str) : Bool :=
  if [invRE1, invRE2, invRE3, invRE4].any (fun r => matchesAtStart r t) then
    false
  else if (splitWhite t).length < 3 then false
  else
    (t.any Char.isDigit) ||
      meaningfulKeywords.any (fun kw => isSubstrOf (strL kw) (toLowerStr t))

/-- Pattern `\d+(?:\.\d+)?%` -/
def numRE1 : RE := seqAll [digits1, optFrac, litCI '%']

/-- Pattern `\$\d+(?:[\d,]*)?(?:\.\d+)?(?:\s*(?:billion|million|thousand|k))?` -/
def numRE2 : RE :=
  seqAll [litEx '$', digits1, .optG (.starG digitComma), optFrac,
    .optG (.seq (.starG spaceC) (anyOfCI scaleWords))]

/-- Pattern `\d+(?:[\d,]*)?(?:\.\d+)?(?:\s*(?:billion|million|thousand|k))?` -/
def numRE3 : RE :=
  seqAll [digits1, .optG (.starG digitComma), optFrac,
    .optG (.seq (.starG spaceC) (anyOfCI scaleWords))]

/-- Pattern `\d+(?:\.\d+)?x` -/
def numRE4 : RE := seqAll [digits1, optFrac, litCI 'x']

/-- Python `_extract_numbers`: `re.findall` of the five formats, de-duplicated. -/
def extractNumbers (t : Str) : List Str :=
  dedupFirst ([numRE1, numRE2, numRE3, numRE4, year20].foldl
    (fun acc r => acc ++ findAllStr r t) [])

/-- Pattern `(?:in|during|by)\s+20\d{2}` -/
def dateRE2 : RE := seqAll [anyOfCI ["in", "during", "by"], spaces1, year20]

/-- Pattern `(?:January|February|…|December)\s+20\d{2}` -/
def dateRE3 : RE :=
  seqAll [anyOfCI ["January", "February", "March", "April", "May", "June",
    "July", "August", "September", "October", "November", "December"],
    spaces1, year20]

/-- Python `_extract_dates`. -/
def extractDates (t : Str) : List Str :=
  dedupFirst ([year20, dateRE2, dateRE3].foldl
    (fun acc r => acc ++ findAllStr r t) [])

/-- Pattern `[a-z]` (the keyword pattern runs on pre-lowered text, no `IGNORECASE`). -/
def lowerAZ : RE := .cls (fun c => 'a' ≤ c && c ≤ 'z')

/-- Pattern `\b[a-z]{3,}\b` -/
def keywordRE : RE :=
  seqAll [.wb, lowerAZ, lowerAZ, lowerAZ, .starG lowerAZ, .wb]

/-- Stop words of `_extract_claim_keywords` (fact-check agent). -/
def stopWordsFC : List Str :=
  (["the", "a", "an", "and", "or", "but", "in", "on", "at", "to", "for",
    "of", "with", "by", "from", "up", "about", "into", "through", "during",
    "is", "are", "was", "were", "be", "been", "being", "have", "has",
    "had"]).map strL

/-- Python `_extract_claim_keywords`: lowercase 3+-letter words minus stop words,
first ten kept. -/
def extractClaimKeywords (t : Str) : List Str :=
  (((findAllStr keywordRE (toLowerStr t)).filter
    (fun w => w ∉ stopWordsFC))).take 10

/-! ## Fact-check agent: section location (`_determine_claim_location`) -/

/-- Pattern `\n#+\s+([^\n]+)` (the split pattern is compiled without flags). -/
def hdrRE : RE :=
  seqAll [litEx '\n', .seq (litEx '#') (.starG (litEx '#')), spaces1,
    .seq (.cls (fun c => c ≠ '\n')) (.starG (.cls (fun c => c ≠ '\n')))]

/-- First position `≥ i` whose character fails `p` (or the end of `s`). -/
def scanWhile (s : Str) (p : Char → Bool) : Nat → Nat → Nat
  | 0, i => i
  | fuel + 1, i =>
    match s.get? i with
    | some c => if p c then scanWhile s p fuel (i + 1) else i
    | none => i

/-- Start of capture group 1 inside a `hdrRE` match span: after the `\n`, the
maximal `#+` run, then the maximal `\s+` run that still leaves at least one
`[^\n]` character before the match end (greedy `\s+` backtracks exactly one
character when the whitespace run touches the end of the match). -/
def hdrGroupStart (s : Str) (sp : Nat × Nat) : Nat :=
  let hashEnd := scanWhile s (fun c => c = '#') s.length (sp.1 + 1)
  let t := scanWhile s isSpaceChar s.length hashEnd
  if t < sp.2 then t else sp.2 - 1

/-- Python `re.split(r'\n#+\s+([^\n]+)', content)`: the texts between matches,
interleaved with each match's group 1. -/
def splitSections (content : Str) : List Str :=
  let spans := findSpans hdrRE content
  let pieces := spans.foldl
    (fun acc sp =>
      (acc.1 ++
        [spanText content (acc.2, sp.1),
         spanText content (hdrGroupStart content sp, sp.2)],
       sp.2))
    (([] : List Str), 0)
  pieces.1 ++ [content.drop pieces.2]

/-- The indexed loop of `_determine_claim_location`: odd entries are headers
(update the current section), even entries are content (check the position). -/
def claimLocGo (position : Nat) : List Str → Bool → Nat → Str → Str
  | [], _, _, cur => cur
  | sec :: rest, isHdr, cpos, cur =>
    if isHdr then claimLocGo position rest false cpos (toLowerStr (strip sec))
    else if cpos ≤ position && position < cpos + sec.length then cur
    else claimLocGo position rest true (cpos + sec.length) cur

/-- Python `_determine_claim_location`. -/
def determineClaimLocation (content : Str) (position : Nat) : Str :=
  claimLocGo position (splitSections content) false 0 (strL "introduction")

/-! ## Fact-check agent: claim extraction (`extract_factual_claims`) -/

/-- Configuration defaults (`MIN_CLAIM_LENGTH`, `MAX_CLAIM_LENGTH`,
`CONFIDENCE_THRESHOLD` environment defaults). -/
def minClaimLength : Nat := 10

/-- See `minClaimLength`. -/
def maxClaimLength : Nat := 200

/-- Python `CONFIDENCE_THRESHOLD` default. -/
def confidenceThreshold : ℚ := 7/10

/-- An extracted claim record. -/
structure FCClaim where
  id : Nat
  claim : Str
  ctype : String
  patternName : String
  priority : Nat
  startPos : Nat
  endPos : Nat
  location : Str
  extractedNumbers : List Str
  extractedDates : List Str
  keywords : List Str
deriving Repr, DecidableEq

/-- Accumulator of the extraction loop: accepted claims, the
`processed_positions` set (as a list) and the next claim id. -/
structure FCExtract where
  claims : List FCClaim
  positions : List Nat
  nextId : Nat

/-- Processing of one regex match inside `extract_factual_claims`: skip if the
start is within 10 characters of an already-accepted position, then validate
the stripped text and either accept (recording the position) or drop. -/
def fcProcessMatch (content : Str) (p : FCPattern) (st : FCExtract)
    (sp : Nat × Nat) : FCExtract :=
  let t := strip (spanText content sp)
  if st.positions.any (fun q => distNat sp.1 q < 10) then st
  else if minClaimLength ≤ t.length && t.length ≤ maxClaimLength &&
      isValidClaim t then
    { claims := st.claims ++
        [{ id := st.nextId, claim := t, ctype := p.ptype,
           patternName := p.name, priority := p.priority,
           startPos := sp.1, endPos := sp.2,
           location := determineClaimLocation content sp.1,
           extractedNumbers := extractNumbers t,
           extractedDates := extractDates t,
           keywords := extractClaimKeywords t }],
      positions := st.positions ++ [sp.1],
      nextId := st.nextId + 1 }
  else st

/-- Lexicographic `(start_pos, priority)` comparison; Python's stable
`sort(key=...)` is modelled by insertion sort with a reflexive comparison
(`orderedInsert` places an element before later elements with an equal key,
which is exactly stability). -/
def fcKeyLE (a b : FCClaim) : Prop :=
  a.startPos < b.startPos ||
    (a.startPos = b.startPos && a.priority ≤ b.priority)

instance : DecidableRel fcKeyLE := fun a b => by
  unfold fcKeyLE; infer_instance

/-- Python `extract_factual_claims`. -/
def extractFactualClaims (content : Str) : List FCClaim :=
  (fcPatterns.foldl
    (fun st p => (findSpans p.re content).foldl (fcProcessMatch content p) st)
    ⟨[], [], 1⟩).claims.insertionSort fcKeyLE

/-! ## Research data model and evidence indexing -/

/-- One entry of `research_data['results']`. -/
structure RDResult where
  query : Option Str
  answer : Option Str
  sources : List Str
deriving Repr, DecidableEq

/-- The research-data bundle consumed by both agents. -/
structure ResearchData where
  statistics : List Str
  expertQuotes : List Str
  results : List RDResult
  sources : List Str
deriving Repr, DecidableEq

/-- The shared guard `not research_data or not any([statistics, expert_quotes,
results])` (list truthiness is non-emptiness). -/
def researchDataEmpty (r : ResearchData) : Bool :=
  r.statistics = [] && r.expertQuotes = [] && r.results = []

/-- A normalized evidence item (`_prepare_research_content` entries). -/
structure RItem where
  text : Str
  rtype : String
  source : Str
  numbers : List Str
  keywords : List Str
deriving Repr, DecidableEq

/-- Python `_prepare_research_content`. -/
def prepareResearchContent (rd : ResearchData) : List RItem :=
  (rd.statistics.map (fun s =>
    ⟨s, "statistic", strL "research_statistics",
      extractNumbers s, extractClaimKeywords s⟩)) ++
  (rd.expertQuotes.map (fun q =>
    ⟨q, "expert_opinion", strL "expert_quotes",
      extractNumbers q, extractClaimKeywords q⟩)) ++
  ((rd.results.filter (fun r => r.answer.isSome)).map (fun r =>
    let a := r.answer.getD []
    ⟨a, "research_result", r.query.getD (strL "research_query"),
      extractNumbers a, extractClaimKeywords a⟩))

/-! ## Numeric matching (`_calculate_number_match_score` and friends) -/

/-- Python `re.sub(r'[^\d.]', '', s)`. -/
def cleanNum (s : Str) : Str := s.filter (fun c => c.isDigit || c = '.')

/-- Numeric value of a digit string. -/
def digitsVal (ds : Str) : ℚ :=
  ds.foldl (fun acc c => acc * 10 + ((c.toNat - '0'.toNat : Nat) : ℚ)) 0

/-- Python `float()` on a cleaned (digits-and-dots) string: at most one dot,
at least one digit; `""`, `"."` and multi-dot strings raise `ValueError`
(modelled by `none`). -/
def parseDecQ (s : Str) : Option ℚ :=
  match s.splitOn '.' with
  | [a] => if a ≠ [] && a.all Char.isDigit then some (digitsVal a) else none
  | [a, b] =>
    if (a ++ b) ≠ [] && (a ++ b).all Char.isDigit then
      some (digitsVal a + digitsVal b / (10 ^ b.length : ℚ))
    else none
  | _ => none

/-- Python `_is_close_numerical_match`. -/
def isCloseNumericalMatch (n1 n2 : Str) : Bool :=
  match parseDecQ n1, parseDecQ n2 with
  | some v1, some v2 =>
    if max v1 v2 ≤ 10 then decide (|v1 - v2| ≤ 1)
    else decide (|v1 - v2| / max v1 v2 ≤ 1/10)
  | _, _ => false

/-- The inner loop of `_calculate_number_match_score` for one claim number:
the first evidence number that matches exactly (after cleaning) or closely
decides the contribution (`break` after either branch). -/
def numScoreOne (rs : List Str) (c : Str) : ℚ :=
  match rs.find? (fun r =>
    cleanNum c = cleanNum r || isCloseNumericalMatch (cleanNum c) (cleanNum r)) with
  | some r => if cleanNum c = cleanNum r then 1 else 7/10
  | none => 0

/-- Python `_calculate_number_match_score`. -/
def calcNumberMatchScore (cs rs : List Str) : ℚ :=
  if cs = [] || rs = [] then 0
  else ((cs.map (numScoreOne rs)).sum) / cs.length

/-- Python `_find_matching_numbers`. -/
def findMatchingNumbers (cs rs : List Str) : List Str :=
  cs.filter (fun c => rs.any (fun r =>
    cleanNum c = cleanNum r || isCloseNumericalMatch (cleanNum c) (cleanNum r)))

/-- Python `_find_matching_keywords` (`list(set a & set b)`, see the note on
`list(set(...))` ordering in the header). -/
def findMatchingKeywords (cs rs : List Str) : List Str :=
  dedupFirst (cs.filter (fun c => c ∈ rs))

/-! ## Match confidence (`_calculate_match_confidence`) -/

/-- Python `_calculate_match_confidence`: 0.3 text similarity + 0.35 number overlap
+ 0.25 keyword overlap (only when both keyword sets are non-empty) + 0.1 type
bonus, capped at 1.0. -/
def calcMatchConfidence (claim : FCClaim) (item : RItem) : ℚ :=
  let ct := toLowerStr claim.claim
  let rt := toLowerStr item.text
  let s1 := similarityScore ct rt * (3/10)
  let s2 := s1 + calcNumberMatchScore claim.extractedNumbers item.numbers * (35/100)
  let ck := claim.keywords.toFinset
  let rk := item.keywords.toFinset
  let s3 := if ck ≠ ∅ ∧ rk ≠ ∅ then
      s2 + (((ck ∩ rk).card : ℚ) / ck.card) * (25/100)
    else s2
  let s4 := if claim.ctype = item.rtype ∨
      (claim.ctype = "statistic" ∧ item.rtype = "statistic") then
      s3 + 1/10
    else s3
  min s4 1

/-! ## Single-claim verification (`_verify_single_claim`) -/

/-- The best-match loop: strictly-greater updates, so the first item with the
maximal confidence wins and a confidence of 0 never attaches a match. -/
def bestResearchMatch (claim : FCClaim) (rc : List RItem) :
    Option RItem × ℚ :=
  rc.foldl
    (fun acc item =>
      let conf := calcMatchConfidence claim item
      if conf > acc.2 then (some item, conf) else acc)
    (none, 0)

/-- The `verification_details` sub-object. -/
structure VDetails where
  bestMatchConfidence : ℚ
  matchType : Option String
  matchingNumbers : List Str
  matchingKeywords : List Str
deriving Repr, DecidableEq

/-- A verified claim: the extracted claim updated with the verification
fields. -/
structure VClaim extends FCClaim where
  status : String
  confidence : ℚ
  supportingSource : Option Str
  supportingText : Option Str
  details : VDetails
deriving Repr, DecidableEq

/-- Python `supporting_text`: the matched text, truncated past 200 characters. -/
def supportingTextOf (best : Option RItem) : Option Str :=
  match best with
  | some item =>
    if item.text.length > 200 then some (item.text.take 200 ++ strL "...")
    else some item.text
  | none => none

/-- Python `_verify_single_claim`: the status bands are decided on the raw best
confidence; the reported confidence is `round(best_confidence, 3)`. -/
def verifySingleClaim (claim : FCClaim) (rc : List RItem) : VClaim :=
  let bm := bestResearchMatch claim rc
  let status := if bm.2 ≥ confidenceThreshold then "verified"
    else if bm.2 ≥ 2/5 then "needs_review"
    else "unsupported"
  { toFCClaim := claim,
    status := status,
    confidence := round3 bm.2,
    supportingSource := bm.1.map RItem.source,
    supportingText := supportingTextOf bm.1,
    details :=
      { bestMatchConfidence := bm.2,
        matchType := bm.1.map RItem.rtype,
        matchingNumbers := findMatchingNumbers claim.extractedNumbers
          ((bm.1.map RItem.numbers).getD []),
        matchingKeywords := findMatchingKeywords claim.keywords
          ((bm.1.map RItem.keywords).getD []) } }

/-! ## Recommendations and accuracy score -/

/-- Per-type tally of unsupported claims, in first-insertion order (Python
dicts preserve insertion order). -/
def typeTally (l : List VClaim) : List (String × Nat) :=
  l.foldl
    (fun acc c =>
      if acc.any (fun p => p.1 = c.ctype) then
        acc.map (fun p => if p.1 = c.ctype then (p.1, p.2 + 1) else p)
      else acc ++ [(c.ctype, 1)])
    []

/-- Python `generate_recommendations`. -/
def generateRecommendations (vc : List VClaim) : List String :=
  let unsupported := vc.filter (fun c => c.status = "unsupported")
  let needsReview := vc.filter (fun c => c.status = "needs_review")
  let nU := unsupported.length
  let highPrio := unsupported.filter (fun c => c.priority ≤ 2)
  let nH := highPrio.length
  let nR := needsReview.length
  let part1 : List String :=
    if unsupported ≠ [] then
      [s!"Remove or find sources for {nU} unsupported claims"] ++
        (if highPrio ≠ [] then
          [s!"Priority: Verify {nH} high-priority statistical claims"]
        else [])
    else []
  let part2 : List String :=
    if needsReview ≠ [] then
      [s!"Review and strengthen sources for {nR} partially supported claims"]
    else []
  let part3 : List String :=
    ((typeTally unsupported).filter (fun p => p.2 ≥ 2)).map
      (fun p =>
        let ty := p.1
        let n := p.2
        s!"Focus on verifying {ty} claims - {n} found unsupported")
  let recs := part1 ++ part2 ++ part3
  if recs = [] then ["All claims are well-supported by research data"] else recs

/-- Contribution of one claim to the accuracy score: full confidence when
verified, 0.6 × confidence when needs review, nothing otherwise. -/
def statusContribution (c : VClaim) : ℚ :=
  if c.status = "verified" then c.confidence
  else if c.status = "needs_review" then c.confidence * (6/10)
  else 0

/-- Python `calculate_accuracy_score`: priority-weighted (weight `4 - priority`)
mean of the per-claim contributions, rounded to three decimals. -/
def calculateAccuracyScore (vc : List VClaim) : ℚ :=
  if vc = [] then 0
  else
    let tw : ℚ := (vc.map (fun c => (4 : ℚ) - (c.priority : ℚ))).sum
    let ws : ℚ :=
      (vc.map (fun c => statusContribution c * ((4 : ℚ) - (c.priority : ℚ)))).sum
    round3 (if 0 < tw then ws / tw else 0)

/-! ## `verify_facts` -/

/-- The `statistics` block of the fact-check result. -/
structure FCStats where
  totalClaims : Nat
  verified : Nat
  unsupported : Nat
  needsReview : Nat
deriving Repr, DecidableEq

/-- The fact-check result object (timing metadata omitted — wall-clock time
carries no logical content; `metaError` is the `metadata['error']` field). -/
structure FCResult where
  verifiedClaims : List VClaim
  statistics : FCStats
  recommendations : List String
  accuracyScore : ℚ
  metaError : Option String
  claimsExtracted : Option Nat
deriving Repr, DecidableEq

/-- Python `verify_facts`.  The `try` body below is total, so the top-level
`except Exception` branch of the source is unreachable in the model. -/
def verifyFacts (content : Str) (rd : ResearchData) : FCResult :=
  if researchDataEmpty rd then
    { verifiedClaims := [], statistics := ⟨0, 0, 0, 0⟩,
      recommendations := ["No research data available for fact verification"],
      accuracyScore := 0,
      metaError := some "No research data available",
      claimsExtracted := none }
  else
    let claims := extractFactualClaims content
    if claims = [] then
      { verifiedClaims := [], statistics := ⟨0, 0, 0, 0⟩,
        recommendations := ["No factual claims detected for verification"],
        accuracyScore := 1,
        metaError := none, claimsExtracted := some 0 }
    else
      let rc := prepareResearchContent rd
      let vcs := claims.map (fun c => verifySingleClaim c rc)
      { verifiedClaims := vcs,
        statistics :=
          ⟨vcs.length,
           (vcs.filter (fun c => c.status = "verified")).length,
           (vcs.filter (fun c => c.status = "unsupported")).length,
           (vcs.filter (fun c => c.status = "needs_review")).length⟩,
        recommendations := generateRecommendations vcs,
        accuracyScore := calculateAccuracyScore vcs,
        metaError := none, claimsExtracted := some claims.length }

/-! ## Citation agent: claim identification -/

/-- One rule of the citation pattern list. -/
structure CPattern where
  re : RE
  ctype : String

/-- Pattern `([^.]*\b\d+(?:\.\d+)?%[^.]*)` -/
def citRE1 : RE :=
  seqAll [.starG noDot, .wb, digits1, optFrac, litCI '%', .starG noDot]

/-- Pattern `([^.]*\$\d+(?:[\d,]*)?(?:\.\d+)?\s*(?:billion|million|thousand|k)?[^.]*)` -/
def citRE2 : RE :=
  seqAll [.starG noDot, litEx '$', digits1, .optG (.starG digitComma), optFrac,
    .starG spaceC, .optG (anyOfCI scaleWords), .starG noDot]

/-- Pattern `([^.]*(?:grew|increased|decreased|rose|fell|improved|declined)\s+(?:by\s+)?\d+(?:\.\d+)?%[^.]*)` -/
def citRE3 : RE :=
  seqAll [.starG noDot,
    anyOfCI ["grew", "increased", "decreased", "rose", "fell", "improved", "declined"],
    spaces1, .optG (.seq (strCI "by") spaces1), digits1, optFrac, litCI '%',
    .starG noDot]

/-- Pattern `([^.]*(?:market|industry|sector)\s+(?:size|value|worth)[^.]*\$?\d+[^.]*)` -/
def citRE4 : RE :=
  seqAll [.starG noDot, anyOfCI ["market", "industry", "sector"], spaces1,
    anyOfCI ["size", "value", "worth"], .starG noDot, .optG (litEx '$'),
    digits1, .starG noDot]

/-- Pattern `([^.]*(?:study|research|survey|report|analysis)\s+(?:shows|found|indicates|reveals|suggests)[^.]*)` -/
def citRE5 : RE :=
  seqAll [.starG noDot,
    anyOfCI ["study", "research", "survey", "report", "analysis"], spaces1,
    anyOfCI ["shows", "found", "indicates", "reveals", "suggests"], .starG noDot]

/-- Pattern `([^.]*(?:according to|experts|analysts|researchers)\s+[^.]*)` -/
def citRE6 : RE :=
  seqAll [.starG noDot,
    anyOfCI ["according to", "experts", "analysts", "researchers"], spaces1,
    .starG noDot]

/-- Pattern `([^.]*(?:in\s+20\d{2}|during\s+20\d{2}|by\s+20\d{2})[^.]*)` -/
def citRE7 : RE :=
  seqAll [.starG noDot,
    .alt (seqAll [strCI "in", spaces1, year20])
      (.alt (seqAll [strCI "during", spaces1, year20])
        (seqAll [strCI "by", spaces1, year20])),
    .starG noDot]

/-- Pattern `([^.]*(?:compared to|versus|more than|less than|higher than|lower than)[^.]*)` -/
def citRE8 : RE :=
  seqAll [.starG noDot,
    anyOfCI ["compared to", "versus", "more than", "less than", "higher than", "lower than"],
    .starG noDot]

/-- Pattern `([^.]*(?:trend|trending|popular|leading|dominant|fastest-growing)[^.]*)` -/
def citRE9 : RE :=
  seqAll [.starG noDot,
    anyOfCI ["trend", "trending", "popular", "leading", "dominant", "fastest-growing"],
    .starG noDot]

/-- The ordered citation pattern list. -/
def citPatterns : List CPattern :=
  [⟨citRE1, "statistic"⟩, ⟨citRE2, "financial"⟩, ⟨citRE3, "growth"⟩,
   ⟨citRE4, "market_data"⟩, ⟨citRE5, "research_finding"⟩,
   ⟨citRE6, "expert_opinion"⟩, ⟨citRE7, "temporal_claim"⟩,
   ⟨citRE8, "comparison"⟩, ⟨citRE9, "trend_claim"⟩]

/-- A claim identified as needing a citation. -/
structure CClaim where
  id : Nat
  text : Str
  ctype : String
  startPos : Nat
  endPos : Nat
  needsCitation : Bool
deriving Repr, DecidableEq

/-- Python `identify_claims_needing_citations`: per pattern, per match, keep stripped
texts longer than 20 characters that have not been seen yet (exact-text
de-duplication only), then a stable sort by start position. -/
def identifyClaimsNeedingCitations (content : Str) : List CClaim :=
  (citPatterns.foldl
    (fun (st : List CClaim × Nat) p =>
      (findSpans p.re content).foldl
        (fun st sp =>
          let t := strip (spanText content sp)
          if t.length > 20 && st.1.all (fun c => c.text ≠ t) then
            (st.1 ++
              [{ id := st.2, text := t, ctype := p.ctype,
                 startPos := sp.1, endPos := sp.2, needsCitation := true }],
             st.2 + 1)
          else st)
        st)
    ([], 1)).1.insertionSort (fun a b => a.startPos ≤ b.startPos)

/-! ## Citation agent: source matching -/

/-- Stop words of the citation agent's `_extract_keywords`. -/
def stopWordsCit : List Str :=
  (["the", "a", "an", "and", "or", "but", "in", "on", "at", "to", "for",
    "of", "with", "by", "from", "up", "about", "into", "through", "during",
    "is", "are", "was", "were", "be", "been", "being", "have", "has", "had",
    "do", "does", "did", "will", "would", "could", "should", "may", "might",
    "this", "that", "these", "those", "there", "their", "they", "them"]).map strL

/-- Citation `_extract_keywords` (no ten-keyword cap here). -/
def extractKeywordsC (t : Str) : List Str :=
  (findAllStr keywordRE (toLowerStr t)).filter (fun w => w ∉ stopWordsCit)

/-- An entry of the research-content list of `match_claims_to_sources`. -/
structure CSource where
  text : Str
  stype : String
  sourceType : String
  query : Option Str
deriving Repr, DecidableEq

/-- The research-content list built by `match_claims_to_sources`. -/
def buildResearchContentC (rd : ResearchData) : List CSource :=
  (rd.statistics.map (fun s => ⟨s, "statistic", "research_statistic", none⟩)) ++
  (rd.expertQuotes.map (fun q => ⟨q, "expert_opinion", "expert_quote", none⟩)) ++
  ((rd.results.filter (fun r => r.answer.isSome)).map (fun r =>
    ⟨r.answer.getD [], "research_finding", "research_result",
      some (r.query.getD [])⟩))

/-- Pattern `\d+(?:\.\d+)?` -/
def numSimpleRE : RE := .seq digits1 optFrac

/-- The per-source score of `_find_best_source_match`: 0.3 type bonus +
0.4 × keyword overlap (denominator: claim keyword *list* length) +
0.3 statistic number bonus + 0.2 × word overlap. -/
def sourceScore (claim : CClaim) (src : CSource) : ℚ :=
  let ct := toLowerStr claim.text
  let st := toLowerStr src.text
  let s1 : ℚ := if claim.ctype = src.stype then 3/10 else 0
  let ck := extractKeywordsC ct
  let sk := extractKeywordsC st
  let s2 := if ck ≠ [] then
      s1 + (((ck.toFinset ∩ sk.toFinset).card : ℚ) / ck.length) * (4/10)
    else s1
  let s3 := if claim.ctype = "statistic" then
      let cn := findAllStr numSimpleRE ct
      let sn := findAllStr numSimpleRE st
      if cn ≠ [] ∧ sn ≠ [] ∧ cn.any (fun n => n ∈ sn) then s2 + 3/10 else s2
    else s2
  let cw := (splitWhite ct).toFinset
  let sw := (splitWhite st).toFinset
  if cw.card > 0 then s3 + (((cw ∩ sw).card : ℚ) / cw.card) * (2/10) else s3

/-- A matched source: `{**source, 'confidence': score}`. -/
structure Matched where
  source : CSource
  confidence : ℚ
deriving Repr, DecidableEq

/-- Python `_find_best_source_match`: keep the strictly best score above the
absolute 0.3 floor. -/
def findBestSourceMatch (claim : CClaim) (rc : List CSource) :
    Option Matched :=
  (rc.foldl
    (fun (acc : Option Matched × ℚ) src =>
      let score := sourceScore claim src
      if score > acc.2 ∧ score > 3/10 then (some ⟨src, score⟩, score) else acc)
    (none, 0)).1

/-- A claim annotated by `match_claims_to_sources`. -/
structure MClaim extends CClaim where
  matchedSource : Option Matched
  confidence : ℚ
deriving Repr, DecidableEq

/-- Python `match_claims_to_sources`; a found match always carries its `confidence`
key, so the `.get('confidence', 0.5)` default is never taken. -/
def matchClaimsToSources (claims : List CClaim) (rd : ResearchData) :
    List MClaim :=
  let rc := buildResearchContentC rd
  claims.map (fun c =>
    match findBestSourceMatch c rc with
    | some m => { toCClaim := c, matchedSource := some m,
                  confidence := m.confidence }
    | none => { toCClaim := c, matchedSource := none, confidence := 0 })

/-! ## Citation agent: citation formatting -/

/-- Decimal rendering of a natural number as a `Str`. -/
def natStr (n : Nat) : Str := (toString n).data

/-- Left-to-right non-overlapping `str.replace` (the pattern used is always
non-empty). -/
def replaceAllGo (pat rep : Str) : Nat → Str → Str
  | 0, s => s
  | fuel + 1, s =>
    match s with
    | [] => []
    | c :: rest =>
      if pat ≠ [] && pat.isPrefixOf s then
        rep ++ replaceAllGo pat rep fuel (s.drop pat.length)
      else c :: replaceAllGo pat rep fuel rest

/-- Python `s.replace(pat, rep)`. -/
def replaceAllSub (s pat rep : Str) : Str :=
  replaceAllGo pat rep s.length s

/-- Python `str.title()`: the first letter of each letter run uppercased, the
rest lowercased. -/
def titleStr (s : Str) : Str :=
  (s.foldl
    (fun (acc : Str × Bool) c =>
      if c.isAlpha then
        (acc.1 ++ [if acc.2 then c.toLower else c.toUpper], true)
      else (acc.1 ++ [c], false))
    ([], false)).1

/-- Python `urlparse(source).netloc` for the common `scheme://host/…` shape: the text
between `//` and the next `/`, `?` or `#` (empty when there is no `//`). -/
def netlocOf (s : Str) : Str :=
  match (List.range s.length).find?
    (fun i => (strL "//").isPrefixOf (s.drop i)) with
  | some i =>
    (s.drop (i + 2)).takeWhile (fun c => c ≠ '/' && c ≠ '?' && c ≠ '#')
  | none => []

/-- The `datetime.now()` renderings used by the three formatters, supplied as
an explicit parameter (wall-clock values carry no logical content). -/
structure NowParams where
  monthDayYear : Str
  ymd : Str
  dayMonY : Str
  year : Str
deriving Repr, DecidableEq

/-- A bibliography entry. -/
structure CitEntry where
  id : Nat
  source : Str
  formatted : Str
  url : Option Str
  accessed : Str
  style : String
deriving Repr, DecidableEq

/-- Python `domain` as computed by all three formatters. -/
def domainOf (source : Str) : Str :=
  titleStr (replaceAllSub (netlocOf source) (strL "www.") [])

/-- Python `_format_apa_citation`. -/
def formatApaCitation (source : Str) (n : Nat) (now : NowParams) : CitEntry :=
  if (strL "http").isPrefixOf source then
    { id := n, source := source,
      formatted := domainOf source ++ strL ". Retrieved " ++ now.monthDayYear
        ++ strL ", from " ++ source,
      url := some source, accessed := now.ymd, style := "apa" }
  else
    { id := n, source := source,
      formatted := source ++ strL ". (" ++ now.year ++ strL "). Research data.",
      url := none, accessed := now.ymd, style := "apa" }

/-- Python `_format_mla_citation`. -/
def formatMlaCitation (source : Str) (n : Nat) (now : NowParams) : CitEntry :=
  if (strL "http").isPrefixOf source then
    { id := n, source := source,
      formatted := strL "\"" ++ domainOf source ++ strL ".\" Web. "
        ++ now.dayMonY ++ strL ".",
      url := some source, accessed := now.ymd, style := "mla" }
  else
    { id := n, source := source,
      formatted := strL "\"" ++ source ++ strL ".\" Research Data, "
        ++ now.year ++ strL ".",
      url := none, accessed := now.ymd, style := "mla" }

/-- Python `_format_chicago_citation`. -/
def formatChicagoCitation (source : Str) (n : Nat) (now : NowParams) :
    CitEntry :=
  if (strL "http").isPrefixOf source then
    { id := n, source := source,
      formatted := domainOf source ++ strL ", accessed " ++ now.monthDayYear
        ++ strL ", " ++ source ++ strL ".",
      url := some source, accessed := now.ymd, style := "chicago" }
  else
    { id := n, source := source,
      formatted := source ++ strL ", Research Data (" ++ now.year ++ strL ").",
      url := none, accessed := now.ymd, style := "chicago" }

/-- Python `self.citation_styles.get(style, …)` with the `"apa"` default. -/
def citationFormatter (style : String) : Str → Nat → NowParams → CitEntry :=
  if style = "mla" then formatMlaCitation
  else if style = "chicago" then formatChicagoCitation
  else formatApaCitation

/-- Python `_create_source_key`, first phase: scan the query results for one whose
answer contains the matched text and which has a non-empty source list. -/
def createSourceKeyGo (text : Str) : List RDResult → Option Str
  | [] => none
  | r :: rest =>
    if r.answer.isSome && isSubstrOf text (r.answer.getD []) then
      match r.sources with
      | s :: _ => some s
      | [] => createSourceKeyGo text rest
    else createSourceKeyGo text rest

/-- Python `_create_source_key` (never `None`: the generic label is the fallback). -/
def createSourceKey (m : Matched) (rd : ResearchData) : Str :=
  match createSourceKeyGo m.source.text rd.results with
  | some s => s
  | none =>
    match rd.sources with
    | s :: _ => s
    | [] => strL "Research Data"

/-- A claim after `format_citations` attached citation numbers. -/
structure CitedClaim extends MClaim where
  citationNumber : Option Nat
  hasCitation : Bool
deriving Repr, DecidableEq

/-- The result dictionary of `format_citations`. -/
structure CitFormat where
  citedClaims : List CitedClaim
  bibliography : List CitEntry
  citationMap : List (Str × Nat)
deriving Repr, DecidableEq

/-- Python `format_citations`: one bibliography entry per distinct truthy source key
of a matched claim; then each matched claim with confidence above the 0.3
gate receives its key's citation number. -/
def formatCitations (mcs : List MClaim) (rd : ResearchData) (style : String)
    (now : NowParams) : CitFormat :=
  let fmt := citationFormatter style
  let bibAcc := mcs.foldl
    (fun (acc : List CitEntry × List (Str × Nat) × Nat) c =>
      match c.matchedSource with
      | some m =>
        let key := createSourceKey m rd
        if key ≠ [] && acc.2.1.all (fun p => p.1 ≠ key) then
          (acc.1 ++ [fmt key acc.2.2 now], acc.2.1 ++ [(key, acc.2.2)],
           acc.2.2 + 1)
        else acc
      | none => acc)
    ([], [], 1)
  let cited := mcs.map (fun c =>
    match c.matchedSource with
    | some m =>
      if c.confidence > 3/10 then
        match (bibAcc.2.1.find? (fun p => p.1 = createSourceKey m rd)) with
        | some p => { toMClaim := c, citationNumber := some p.2,
                      hasCitation := true }
        | none => { toMClaim := c, citationNumber := none,
                    hasCitation := false }
      else { toMClaim := c, citationNumber := none, hasCitation := false }
    | none => { toMClaim := c, citationNumber := none, hasCitation := false })
  { citedClaims := cited, bibliography := bibAcc.1, citationMap := bibAcc.2.1 }

/-- Python `create_bibliography_section` (its `style` argument is unused in the
source). -/
def createBibliographySection (bib : List CitEntry) : Str :=
  if bib = [] then []
  else
    strL "\n\n## References\n\n" ++
      ((bib.insertionSort (fun a b => a.id ≤ b.id)).foldl
        (fun acc e => acc ++ natStr e.id ++ strL ". " ++ e.formatted
          ++ strL "\n")
        [])

/-- Python `apply_citations_to_content`: claims stably sorted by descending start
position; each claim with a citation inserts ` [n]` before the first period
found at or after `end_pos + offset` in the string built so far (or at
`end_pos + offset` when none is found), where `offset` is the total length of
the markers inserted so far. -/
def citeStep (acc : Str × Nat) (c : CitedClaim) : Str × Nat :=
  if c.hasCitation && (c.citationNumber.getD 0) ≠ 0 then
    let endPos := c.endPos + acc.2
    let se := (findCharFrom acc.1 '.' endPos).getD endPos
    let marker := strL " [" ++ natStr (c.citationNumber.getD 0) ++ strL "]"
    (insertAt acc.1 se marker, acc.2 + marker.length)
  else acc

/-- See `citeStep` for the per-claim insertion. -/
def applyCitationsToContent (content : Str) (cited : List CitedClaim) : Str :=
  ((cited.insertionSort (fun a b => b.startPos ≤ a.startPos)).foldl citeStep
    (content, 0)).1

/-! ## `add_citations` -/

/-- One entry of `uncited_claims`. -/
structure UncitedClaim where
  text : Str
  ctype : String
  reason : String
deriving Repr, DecidableEq

/-- The citation result metadata (timing omitted). -/
structure CitMeta where
  totalClaimsIdentified : Option Nat
  claimsWithSources : Option Nat
  citationStyle : Option String
  successRate : Option ℚ
  error : Option String
deriving Repr, DecidableEq

/-- The citation result object. -/
structure CitResult where
  citedContent : Str
  bibliography : List CitEntry
  citationCount : Nat
  uncitedClaims : List UncitedClaim
  meta : CitMeta
deriving Repr, DecidableEq

/-- The `try` body of `add_citations` (steps 1–5).  Each step of the source is
total for well-formed inputs; the `Except` layer models the `try`/`except`
boundary.  `format_citations` mutates the claim dictionaries in place in the
source, so `uncited_claims` reads the post-`format_citations` records. -/
def addCitationsBody (content : Str) (rd : ResearchData) (style : String)
    (now : NowParams) : Except String CitResult :=
  let claims := identifyClaimsNeedingCitations content
  let mcs := matchClaimsToSources claims rd
  let successful := mcs.filter (fun c => c.matchedSource.isSome)
  let cdata := formatCitations mcs rd style now
  let citedContent := applyCitationsToContent content cdata.citedClaims
  let finalContent := citedContent ++ createBibliographySection cdata.bibliography
  let uncited := (cdata.citedClaims.filter (fun c => ¬ c.hasCitation)).map
    (fun c =>
      { text := c.text, ctype := c.ctype,
        reason := if c.matchedSource.isNone then "No matching source found"
          else "Low confidence match" : UncitedClaim })
  .ok
    { citedContent := finalContent,
      bibliography := cdata.bibliography,
      citationCount := cdata.bibliography.length,
      uncitedClaims := uncited,
      meta :=
        { totalClaimsIdentified := some claims.length,
          claimsWithSources := some successful.length,
          citationStyle := some style,
          successRate := some (if claims ≠ [] then
            (successful.length : ℚ) / claims.length else 0),
          error := none } }

/-- The record returned when the research bundle is entirely empty. -/
def emptyResearchCitResult (content : Str) : CitResult :=
  { citedContent := content, bibliography := [], citationCount := 0,
    uncitedClaims := [],
    meta := ⟨none, none, none, none, some "No research data available"⟩ }

/-- The record returned by the `except` branch. -/
def errorCitResult (content : Str) (e : String) : CitResult :=
  { citedContent := content, bibliography := [], citationCount := 0,
    uncitedClaims := [], meta := ⟨none, none, none, none, some e⟩ }

/-- Python `add_citations`: empty research data short-circuits; otherwise the body
runs under the `try`/`except` boundary. -/
def addCitations (content : Str) (rd : ResearchData) (style : String)
    (now : NowParams) : CitResult :=
  if researchDataEmpty rd then emptyResearchCitResult content
  else
    match addCitationsBody content rd style now with
    | .ok r => r
    | .error e => errorCitResult content e

/-! ## Specification-side definitions

The following definitions are written from the specification's words (not from
the source); the theorems below compare them with the source embeddings. -/

/-- The inline marker ` [n]`. -/
def markerStr (n : Nat) : Str := strL " [" ++ natStr n ++ strL "]"

/-- Spec reading of the insertion rule (claim C3): process claims in order of
decreasing start offset; insert the marker immediately before the first
period at or after **the claim's end offset** in the content being built, or
at the claim's end offset when no period follows. -/
def specApplyCitations (content : Str) (cited : List CitedClaim) : Str :=
  ((cited.insertionSort (fun a b => b.startPos ≤ a.startPos)).foldl
    (fun acc c =>
      if c.hasCitation && (c.citationNumber.getD 0) ≠ 0 then
        insertAt acc ((findCharFrom acc '.' c.endPos).getD c.endPos)
          (markerStr (c.citationNumber.getD 0))
      else acc)
    content)

/-- Amended insertion rule: as `specApplyCitations`, but the search for the
period starts at the claim's end offset **plus the total length of the markers
inserted so far** (and the fallback position is that shifted offset). -/
def specApplyCitationsShifted (content : Str) (cited : List CitedClaim) : Str :=
  ((cited.insertionSort (fun a b => b.startPos ≤ a.startPos)).foldl
    (fun (acc : Str × Nat) c =>
      if c.hasCitation && (c.citationNumber.getD 0) ≠ 0 then
        let se := (findCharFrom acc.1 '.' (c.endPos + acc.2)).getD
          (c.endPos + acc.2)
        let m := markerStr (c.citationNumber.getD 0)
        (insertAt acc.1 se m, acc.2 + m.length)
      else acc)
    (content, 0)).1

/-- Insertion events: apply a list of `(position, text)` insertions in order. -/
def applyEvents (s : Str) (evs : List (Nat × Str)) : Str :=
  evs.foldl (fun acc e => insertAt acc e.1 e.2) s

/-- Undo a list of insertions (inverse order). -/
def removeEvents (s : Str) : List (Nat × Str) → Str
  | [] => s
  | e :: evs => removeAt (removeEvents s evs) e.1 e.2.length

/-- Every insertion position is within the string it is applied to. -/
inductive ClampedFrom : Str → List (Nat × Str) → Prop where
  | nil (s : Str) : ClampedFrom s []
  | cons (s : Str) (i : Nat) (m : Str) (evs : List (Nat × Str)) :
      i ≤ s.length → ClampedFrom (insertAt s i m) evs →
      ClampedFrom s ((i, m) :: evs)

/-- The insertion events performed by `apply_citations_to_content`, with
positions clamped to the current length (Python slicing clamps). -/
def citeEventsGo : List CitedClaim → Str → Nat → List (Nat × Str)
  | [], _, _ => []
  | c :: cs, s, off =>
    if c.hasCitation && (c.citationNumber.getD 0) ≠ 0 then
      let se := (findCharFrom s '.' (c.endPos + off)).getD (c.endPos + off)
      let m := markerStr (c.citationNumber.getD 0)
      (min se s.length, m) :: citeEventsGo cs (insertAt s se m) (off + m.length)
    else citeEventsGo cs s off

/-- The `(status, confidence)` projection of a fact-check report. -/
def statusConfList (r : FCResult) : List (String × ℚ) :=
  r.verifiedClaims.map (fun c => (c.status, c.confidence))

/-- Spec weights (claim C5): priority 1 ↦ 3, priority 2 ↦ 2, priority 3 ↦ 1. -/
def weightOf (p : Nat) : ℚ := if p = 1 then 3 else if p = 2 then 2 else 1

/-- Spec contribution (claim C5): full confidence when verified, 0.6 × it
when needs review, 0 when unsupported. -/
def specContribution (c : VClaim) : ℚ :=
  if c.status = "verified" then c.confidence
  else if c.status = "needs_review" then (6/10) * c.confidence
  else 0

/-- Spec accuracy (claim C5): the priority-weighted mean. -/
def specWeightedMean (vc : List VClaim) : ℚ :=
  ((vc.map (fun c => specContribution c * weightOf c.priority)).sum) /
    ((vc.map (fun c => weightOf c.priority)).sum)

/-- Spec per-number score (claim C6): 1.0 when an exact match exists among
the evidence numbers, 0.7 when a close match exists, 0 otherwise. -/
def specNumScoreExists (rs : List Str) (c : Str) : ℚ :=
  if rs.any (fun r => cleanNum c = cleanNum r) then 1
  else if rs.any (fun r => isCloseNumericalMatch (cleanNum c) (cleanNum r))
    then 7/10
  else 0

/-- Spec number-overlap sub-score (claim C6, as stated). -/
def specNumberMatchScoreClaim (cs rs : List Str) : ℚ :=
  if cs = [] ∨ rs = [] then 0
  else ((cs.map (specNumScoreExists rs)).sum) / cs.length

/-- Amended per-number score: the first evidence number in list order that
matches exactly or closely decides (1.0 exact, 0.7 close). -/
def specNumScoreSeq (c : Str) : List Str → ℚ
  | [] => 0
  | r :: rest =>
    if cleanNum c = cleanNum r then 1
    else if isCloseNumericalMatch (cleanNum c) (cleanNum r) then 7/10
    else specNumScoreSeq c rest

/-- Amended number-overlap sub-score. -/
def specNumberMatchScoreSeq (cs rs : List Str) : ℚ :=
  if cs = [] ∨ rs = [] then 0
  else ((cs.map (fun c => specNumScoreSeq c rs)).sum) / cs.length

/-! ## Concrete inputs used by counterexamples and witnesses -/

/-- A 42-character content whose single claim scores 1413/2020 ≈ 0.6995
against the matching statistic below. -/
def c2content : Str := strL "it was up by at on in to of had an the 25%"

/-- The statistic is the claim text plus 17 filler characters, so the
similarity ratio is 84/101 and the full score is 0.45 + 0.3·84/101. -/
def c2research : ResearchData :=
  ⟨[strL "it was up by at on in to of had an the 25% zz zz zz zz zzzz"],
   [], [], []⟩

/-- Content on which the citation extractor returns two distinct claims with
the same start offset 0 (the decimal point of `$3.5` ends the `market_data`
match early, while the `financial` match crosses it). -/
def c9content : Str := strL "The market size is $3.5 billion in 2024."

/-- Content with two fact-check claims at offsets 0 and 19. -/
def fcTwoClaims : Str := strL "aa bb cc 25% dd ee. ff gg hh 75% ii jj."

/-- Content from which no factual claim is extracted. -/
def noClaimContent : Str := strL "hello there friend"

/-- The all-empty research bundle. -/
def emptyRD : ResearchData := ⟨[], [], [], []⟩

/-- A one-statistic research bundle. -/
def oneStatRD : ResearchData := ⟨[strL "some stat 5%"], [], [], []⟩

/-- Fixed `datetime.now()` renderings for concrete evaluations. -/
def now0 : NowParams :=
  ⟨strL "January 01, 2026", strL "2026-01-01", strL "01 Jan 2026", strL "2026"⟩

/-- A citation claim whose self-match scores 1.2. -/
def acmeClaim : CClaim :=
  ⟨1, strL "Acme sales grew 25% this quarter", "statistic", 0, 32, true⟩

/-- The evidence item with the same text. -/
def acmeSource : CSource :=
  ⟨strL "Acme sales grew 25% this quarter", "statistic",
   "research_statistic", none⟩

/-- The research bundle whose indexing produces `acmeSource`. -/
def acmeRD : ResearchData :=
  ⟨[strL "Acme sales grew 25% this quarter"], [], [], []⟩

/-- A throwaway fact-check claim for witness instantiations. -/
def fcClaimW : FCClaim :=
  ⟨1, strL "aa bb cc 25%", "statistic", "percentage_statistics", 1, 0, 12,
   strL "introduction", [strL "25%", strL "25"], [], []⟩

/-- A throwaway evidence item for witness instantiations. -/
def rItemW : RItem :=
  ⟨strL "aa bb cc 25%", "statistic", strL "research_statistics",
   [strL "25%", strL "25"], []⟩

/-- The two-sentence content of the citation-placement counterexample. -/
def c3content : Str := strL "Sales grew 5% in fiscal. Profit grew 7% in fiscal."

/-- First cited claim (spans the first sentence), as produced by the pipeline
on `c3content` with both sentences present as statistics. -/
def c3claimA : CitedClaim :=
  { id := 1, text := strL "Sales grew 5% in fiscal", ctype := "statistic",
    startPos := 0, endPos := 23, needsCitation := true,
    matchedSource := some ⟨⟨strL "Sales grew 5% in fiscal", "statistic",
      "research_statistic", none⟩, 6/5⟩,
    confidence := 6/5, citationNumber := some 1, hasCitation := true }

/-- Second cited claim (spans the second sentence). -/
def c3claimB : CitedClaim :=
  { id := 2, text := strL "Profit grew 7% in fiscal", ctype := "statistic",
    startPos := 24, endPos := 49, needsCitation := true,
    matchedSource := some ⟨⟨strL "Profit grew 7% in fiscal", "statistic",
      "research_statistic", none⟩, 6/5⟩,
    confidence := 6/5, citationNumber := some 1, hasCitation := true }

/-- A priority-1 verified claim with confidence 1/2. -/
def vClaimP1 : VClaim :=
  { id := 1, claim := strL "aa bb cc 25%", ctype := "statistic",
    patternName := "percentage_statistics", priority := 1, startPos := 0,
    endPos := 12, location := strL "introduction",
    extractedNumbers := [strL "25%"], extractedDates := [], keywords := [],
    status := "verified", confidence := 1/2,
    supportingSource := some (strL "research_statistics"),
    supportingText := some (strL "aa bb cc 25%"),
    details := ⟨1/2, some "statistic", [], []⟩ }

/-- A priority-3 verified claim with confidence 1/4. -/
def vClaimP3 : VClaim :=
  { id := 2, claim := strL "9 times more ff gg", ctype := "comparative",
    patternName := "comparative_claims", priority := 3, startPos := 20,
    endPos := 38, location := strL "introduction",
    extractedNumbers := [strL "9"], extractedDates := [], keywords := [],
    status := "verified", confidence := 1/4,
    supportingSource := some (strL "research_statistics"),
    supportingText := some (strL "9 times more ff gg"),
    details := ⟨1/4, some "statistic", [], []⟩ }

/-- The two-claim list on which rounding separates the code's accuracy score
from the exact weighted mean: the mean is 7/16 = 0.4375, the code reports
0.438. -/
def c5claims : List VClaim := [vClaimP1, vClaimP3]

/-- The matched-claim record produced by `match_claims_to_sources` on the
one-claim Acme input. -/
def mClaimW : MClaim :=
  { toCClaim := acmeClaim, matchedSource := some ⟨acmeSource, 6/5⟩,
    confidence := 6/5 }

/-- The cited-claim record produced by `format_citations` on the same input. -/
def citedClaimW : CitedClaim :=
  { toMClaim := mClaimW, citationNumber := some 1, hasCitation := true }

/-- The single verified claim of the `c2content`/`c2research` run. -/
def c2claim0 : VClaim :=
  ((verifyFacts c2content c2research).verifiedClaims).getD 0 vClaimP1

/-- The two fact-check claims extracted from `fcTwoClaims`. -/
def fcC9a : FCClaim := (extractFactualClaims fcTwoClaims).getD 0 fcClaimW

/-- See `fcC9a`. -/
def fcC9b : FCClaim := (extractFactualClaims fcTwoClaims).getD 1 fcClaimW

/-- The two citation claims identified in `c9content`. -/
def citC9a : CClaim := (identifyClaimsNeedingCitations c9content).getD 0 acmeClaim

/-- See `citC9a`. -/
def citC9b : CClaim := (identifyClaimsNeedingCitations c9content).getD 1 acmeClaim

/-! # Theorems

Helper lemmas first, then one theorem per specification claim (with
counterexamples and witnesses where the claim's status requires them). -/

/-- Fold preservation of an invariant. -/
theorem foldlPreserve {α σ : Type} (P : σ → Prop) (f : σ → α → σ)
    (h : ∀ s a, P s → P (f s a)) :
    ∀ (l : List α) (s : σ), P s → P (l.foldl f s) := by
  intro l
  induction l with
  | nil => intro s hs; exact hs
  | cons a l ih => intro s hs; exact ih (f s a) (h s a hs)

/-- Python `distNat` is symmetric. -/
theorem distNat_symm (a b : Nat) : distNat a b = distNat b a := by
  unfold distNat; rw [Nat.max_comm, Nat.min_comm]

/-- The integer part used in `roundHalfEven` is the floor. -/
theorem rhe_floor_eq (x : ℚ) : x.num / (x.den : ℤ) = ⌊x⌋ :=
  Rat.floor_def.symm

/-- Python `roundHalfEven` of a non-negative rational is non-negative. -/
theorem roundHalfEven_nonneg {x : ℚ} (hx : 0 ≤ x) : 0 ≤ roundHalfEven x := by
  unfold roundHalfEven
  rw [rhe_floor_eq]
  have h0 : (0 : ℤ) ≤ ⌊x⌋ := Int.floor_nonneg.mpr hx
  dsimp only
  split
  · exact h0
  · split
    · omega
    · split <;> omega

/-- Python `roundHalfEven` never exceeds an integer upper bound of its argument. -/
theorem roundHalfEven_le {x : ℚ} {N : ℤ} (hx : x ≤ (N : ℚ)) :
    roundHalfEven x ≤ N := by
  unfold roundHalfEven
  rw [rhe_floor_eq]
  have hf : ⌊x⌋ ≤ N := by
    have := Int.floor_le_floor hx
    simpa using this
  dsimp only
  split
  · exact hf
  · rename_i h1
    have hhalf : (1/2 : ℚ) ≤ x - (⌊x⌋ : ℚ) := le_of_not_lt h1
    have hlt : ⌊x⌋ < N := by
      by_contra hcon
      have hEq : ⌊x⌋ = N := le_antisymm hf (not_lt.mp hcon)
      have : x - (⌊x⌋ : ℚ) ≤ 0 := by
        rw [hEq]; linarith
      linarith
    split
    · omega
    · split <;> omega

/-- Python `round3` keeps `[0, 1]`. -/
theorem round3_mem_unit {x : ℚ} (h0 : 0 ≤ x) (h1 : x ≤ 1) :
    0 ≤ round3 x ∧ round3 x ≤ 1 := by
  unfold round3
  have hn : 0 ≤ roundHalfEven (x * 1000) :=
    roundHalfEven_nonneg (by positivity)
  have hl : roundHalfEven (x * 1000) ≤ 1000 := by
    apply roundHalfEven_le
    push_cast
    nlinarith
  constructor
  · positivity
  · rw [div_le_one (by norm_num)]
    exact_mod_cast hl

/-- Removing an insertion at an in-range position restores the string. -/
theorem removeAt_insertAt (s m : Str) {i : Nat} (h : i ≤ s.length) :
    removeAt (insertAt s i m) i m.length = s := by
  unfold insertAt removeAt
  have hlen : (s.take i).length = i := by rw [List.length_take]; omega
  rw [List.append_assoc]
  have h1 : (s.take i ++ (m ++ s.drop i)).take i = s.take i :=
    List.take_left' hlen
  have h2 : (s.take i ++ (m ++ s.drop i)).drop (i + m.length) = s.drop i := by
    rw [← List.append_assoc]
    exact List.drop_left' (by rw [List.length_append, hlen])
  rw [h1, h2, List.take_append_drop]

/-- Python slicing clamps the insertion position to the length. -/
theorem insertAt_clamp (s m : Str) (i : Nat) :
    insertAt s i m = insertAt s (min i s.length) m := by
  rcases le_total i s.length with h | h
  · rw [Nat.min_eq_left h]
  · unfold insertAt
    rw [Nat.min_eq_right h]
    rw [List.take_of_length_le h, List.take_length,
      List.drop_eq_nil_of_le h, List.drop_length]

/-- Undoing clamped insertions in reverse order restores the original. -/
theorem removeEvents_applyEvents {s : Str} {evs : List (Nat × Str)}
    (h : ClampedFrom s evs) : removeEvents (applyEvents s evs) evs = s := by
  induction h with
  | nil s => rfl
  | cons s i m evs hle _ ih =>
    show removeAt (removeEvents (applyEvents s ((i, m) :: evs)) evs) i m.length
      = s
    have happ : applyEvents s ((i, m) :: evs)
        = applyEvents (insertAt s i m) evs := rfl
    rw [happ, ih]
    exact removeAt_insertAt s m hle

/-- The fold of `apply_citations_to_content` applies exactly the recorded
insertion events. -/
theorem citeFold_eq_events :
    ∀ (cs : List CitedClaim) (s : Str) (off : Nat),
      (cs.foldl citeStep (s, off)).1 = applyEvents s (citeEventsGo cs s off) := by
  intro cs
  induction cs with
  | nil => intro s off; rfl
  | cons c cs ih =>
    intro s off
    by_cases hc : (c.hasCitation && (c.citationNumber.getD 0) ≠ 0) = true
    · have hstep : citeStep (s, off) c =
        (insertAt s ((findCharFrom s '.' (c.endPos + off)).getD (c.endPos + off))
          (markerStr (c.citationNumber.getD 0)),
         off + (markerStr (c.citationNumber.getD 0)).length) := by
        unfold citeStep markerStr
        rw [if_pos hc]
      have hev : citeEventsGo (c :: cs) s off =
          (min ((findCharFrom s '.' (c.endPos + off)).getD (c.endPos + off))
            s.length, markerStr (c.citationNumber.getD 0)) ::
          citeEventsGo cs
            (insertAt s
              ((findCharFrom s '.' (c.endPos + off)).getD (c.endPos + off))
              (markerStr (c.citationNumber.getD 0)))
            (off + (markerStr (c.citationNumber.getD 0)).length) := by
        rw [citeEventsGo]
        rw [if_pos hc]
      rw [List.foldl_cons, hstep, hev, ih]
      unfold applyEvents
      rw [List.foldl_cons]
      rw [← insertAt_clamp]
    · have hstep : citeStep (s, off) c = (s, off) := by
        unfold citeStep
        rw [if_neg hc]
      have hev : citeEventsGo (c :: cs) s off = citeEventsGo cs s off := by
        rw [citeEventsGo]
        rw [if_neg hc]
      rw [List.foldl_cons, hstep, hev, ih]

/-- The recorded insertion events are clamped. -/
theorem citeEvents_clamped :
    ∀ (cs : List CitedClaim) (s : Str) (off : Nat),
      ClampedFrom s (citeEventsGo cs s off) := by
  intro cs
  induction cs with
  | nil => intro s off; exact ClampedFrom.nil s
  | cons c cs ih =>
    intro s off
    by_cases hc : (c.hasCitation && (c.citationNumber.getD 0) ≠ 0) = true
    · have hev : citeEventsGo (c :: cs) s off =
          (min ((findCharFrom s '.' (c.endPos + off)).getD (c.endPos + off))
            s.length, markerStr (c.citationNumber.getD 0)) ::
          citeEventsGo cs
            (insertAt s
              ((findCharFrom s '.' (c.endPos + off)).getD (c.endPos + off))
              (markerStr (c.citationNumber.getD 0)))
            (off + (markerStr (c.citationNumber.getD 0)).length) := by
        rw [citeEventsGo]
        rw [if_pos hc]
      rw [hev]
      refine ClampedFrom.cons _ _ _ _ (Nat.min_le_right _ _) ?_
      rw [← insertAt_clamp]
      exact ih _ _
    · have hev : citeEventsGo (c :: cs) s off = citeEventsGo cs s off := by
        conv_lhs => rw [citeEventsGo]
        rw [if_neg hc]
      rw [hev]
      exact ih s off

/-- Every recorded insertion is an ` [n]` marker. -/
theorem citeEvents_markers :
    ∀ (cs : List CitedClaim) (s : Str) (off : Nat),
      ∀ e ∈ citeEventsGo cs s off, ∃ n, e.2 = markerStr n := by
  intro cs
  induction cs with
  | nil => intro s off e he; cases he
  | cons c cs ih =>
    intro s off e he
    by_cases hc : (c.hasCitation && (c.citationNumber.getD 0) ≠ 0) = true
    · rw [show citeEventsGo (c :: cs) s off =
          (min ((findCharFrom s '.' (c.endPos + off)).getD (c.endPos + off))
            s.length, markerStr (c.citationNumber.getD 0)) ::
          citeEventsGo cs
            (insertAt s
              ((findCharFrom s '.' (c.endPos + off)).getD (c.endPos + off))
              (markerStr (c.citationNumber.getD 0)))
            (off + (markerStr (c.citationNumber.getD 0)).length) by
          rw [citeEventsGo]; rw [if_pos hc]] at he
      rcases List.mem_cons.mp he with he | he
      · exact ⟨c.citationNumber.getD 0, by rw [he]⟩
      · exact ih _ _ e he
    · rw [show citeEventsGo (c :: cs) s off = citeEventsGo cs s off by
        conv_lhs => rw [citeEventsGo]
        rw [if_neg hc]] at he
      exact ih s off e he

/-- Python `apply_citations_to_content` only inserts ` [n]` markers, and undoing the
insertions restores the content. -/
theorem applyCitations_decomposition (content : Str)
    (cited : List CitedClaim) :
    ∃ evs, applyCitationsToContent content cited = applyEvents content evs ∧
      removeEvents (applyEvents content evs) evs = content ∧
      ∀ e ∈ evs, ∃ n, e.2 = markerStr n := by
  refine ⟨citeEventsGo
    (cited.insertionSort (fun a b => b.startPos ≤ a.startPos)) content 0,
    ?_, ?_, ?_⟩
  · unfold applyCitationsToContent
    exact citeFold_eq_events _ _ _
  · exact removeEvents_applyEvents (citeEvents_clamped _ _ _)
  · exact citeEvents_markers _ _ _

/-- Claim **C4** (`algebraic_relational`, confirmed).  For every content string,
research data and style, the `cited_content` returned by `add_citations` is
the original content with zero or more ` [n]` markers inserted and a
references section appended: undoing exactly those insertions (and dropping
the appended section) restores the original content character for
character. -/
theorem claim_C4_content_preservation (content : Str) (rd : ResearchData)
    (style : String) (now : NowParams) :
    ∃ (evs : List (Nat × Str)) (refs : Str),
      (addCitations content rd style now).citedContent
        = applyEvents content evs ++ refs ∧
      removeEvents (applyEvents content evs) evs = content ∧
      (∀ e ∈ evs, ∃ n, e.2 = markerStr n) ∧
      (refs = [] ∨ ∃ bib, refs = createBibliographySection bib) := by
  unfold addCitations
  by_cases hre : researchDataEmpty rd = true
  · rw [if_pos hre]
    refine ⟨[], [], ?_, rfl, ?_, Or.inl rfl⟩
    · show content = applyEvents content [] ++ []
      rw [List.append_nil]
      rfl
    · intro e he
      cases he
  · rw [if_neg hre]
    unfold addCitationsBody
    dsimp only
    rcases applyCitations_decomposition content
      (formatCitations (matchClaimsToSources
        (identifyClaimsNeedingCitations content) rd) rd style now).citedClaims
      with ⟨evs, h1, h2, h3⟩
    refine ⟨evs,
      createBibliographySection (formatCitations (matchClaimsToSources
        (identifyClaimsNeedingCitations content) rd) rd style now).bibliography,
      ?_, h2, h3, Or.inr ⟨_, rfl⟩⟩
    rw [← h1]

/-- Claim **C3** counterexample.  On a two-sentence content with two cited claims,
the marker of the earlier claim is inserted after the *second* sentence
(behind the marker of the later claim), not immediately before the first
period at or after the claim's end offset as the claim states: the code's
placement differs from the claim's placement on this input. -/
theorem claim_C3_counterexample :
    applyCitationsToContent c3content [c3claimA, c3claimB]
        = strL "Sales grew 5% in fiscal. Profit grew 7% in fiscal [1] [1]." ∧
      specApplyCitations c3content [c3claimA, c3claimB]
        = strL "Sales grew 5% in fiscal [1]. Profit grew 7% in fiscal [1]." ∧
      applyCitationsToContent c3content [c3claimA, c3claimB]
        ≠ specApplyCitations c3content [c3claimA, c3claimB] := by
  refine ⟨by decide, by decide, by decide⟩

/-- Claim **C3** (`functional_correctness`, corrected).  Amended claim: markers are
applied in order of decreasing claim start offset, and each marker ` [n]` is
inserted immediately before the first period at or after the claim's end
offset **plus the total length of the markers inserted so far** in the
content being built (or at that shifted offset when no period follows). -/
theorem claim_C3_amended (content : Str) (cited : List CitedClaim) :
    applyCitationsToContent content cited
      = specApplyCitationsShifted content cited := by
  unfold applyCitationsToContent specApplyCitationsShifted citeStep markerStr
  rfl

attribute [local semireducible] Rat.mul Rat.inv Rat.add Rat.sub in
/-- Claim **C5** counterexample.  On a priority-1 and a priority-3 verified claim
with confidences 1/2 and 1/4, the weighted mean is 7/16 = 0.4375 but
`calculate_accuracy_score` returns its 3-decimal rounding 0.438: the returned
score does not equal the weighted mean. -/
theorem claim_C5_counterexample :
    calculateAccuracyScore c5claims = 219/500 ∧
      specWeightedMean c5claims = 7/16 ∧
      calculateAccuracyScore c5claims ≠ specWeightedMean c5claims := by
  refine ⟨by decide, by decide, by decide⟩

/-- Code and spec contributions agree claim by claim. -/
theorem statusContribution_eq_spec (c : VClaim) :
    statusContribution c = specContribution c := by
  unfold statusContribution specContribution
  split
  · rfl
  · split
    · exact mul_comm _ _
    · rfl

/-- Claim **C5** (`functional_correctness`, corrected).  Amended claim: for every
non-empty list of classified claims (priorities in {1,2,3}, confidences in
[0,1]), `calculate_accuracy_score` returns the priority-weighted mean —
weights 3/2/1, contribution = confidence, 0.6 × confidence, or 0 by status —
**rounded half-to-even to three decimals**, and the result lies in [0,1]. -/
theorem claim_C5_accuracy_amended (l : List VClaim) (hne : l ≠ [])
    (hp : ∀ c ∈ l, c.priority = 1 ∨ c.priority = 2 ∨ c.priority = 3)
    (hc : ∀ c ∈ l, 0 ≤ c.confidence ∧ c.confidence ≤ 1) :
    calculateAccuracyScore l = round3 (specWeightedMean l) ∧
      0 ≤ calculateAccuracyScore l ∧ calculateAccuracyScore l ≤ 1 := by
  have hw : ∀ c ∈ l, ((4 : ℚ) - (c.priority : ℚ)) = weightOf c.priority := by
    intro c hcm
    rcases hp c hcm with h | h | h <;> rw [h] <;> norm_num [weightOf]
  have hws : (l.map (fun c => (4 : ℚ) - (c.priority : ℚ))).sum
      = (l.map (fun c => weightOf c.priority)).sum := by
    congr 1
    exact List.map_congr_left hw
  have hcs : (l.map (fun c => statusContribution c * ((4 : ℚ) - (c.priority : ℚ)))).sum
      = (l.map (fun c => specContribution c * weightOf c.priority)).sum := by
    congr 1
    refine List.map_congr_left ?_
    intro c hcm
    rw [statusContribution_eq_spec, hw c hcm]
  have hcontrib_nonneg : ∀ c ∈ l, 0 ≤ statusContribution c := by
    intro c hcm
    unfold statusContribution
    split
    · exact (hc c hcm).1
    · split
      · have := (hc c hcm).1
        positivity
      · exact le_refl 0
  have hcontrib_le : ∀ c ∈ l, statusContribution c ≤ 1 := by
    intro c hcm
    rcases hc c hcm with ⟨h0, h1⟩
    unfold statusContribution
    split
    · exact h1
    · split
      · nlinarith
      · norm_num
  have hwpos : 0 < (l.map (fun c => (4 : ℚ) - (c.priority : ℚ))).sum := by
    cases l with
    | nil => exact absurd rfl hne
    | cons a l' =>
      rw [List.map_cons, List.sum_cons]
      have ha : (1 : ℚ) ≤ 4 - (a.priority : ℚ) := by
        rcases hp a (List.mem_cons_self a l') with h | h | h <;> rw [h] <;> norm_num
      have hrest : 0 ≤ (l'.map (fun c => (4 : ℚ) - (c.priority : ℚ))).sum := by
        apply List.sum_nonneg
        intro x hx
        rcases List.mem_map.mp hx with ⟨c, hcm, rfl⟩
        rcases hp c (List.mem_cons_of_mem _ hcm) with h | h | h <;>
          rw [h] <;> norm_num
      linarith
  have hle : (l.map (fun c => statusContribution c * ((4 : ℚ) - (c.priority : ℚ)))).sum
      ≤ (l.map (fun c => (4 : ℚ) - (c.priority : ℚ))).sum := by
    apply List.sum_le_sum
    intro c hcm
    have h1 : statusContribution c ≤ 1 := hcontrib_le c hcm
    have h0 : 0 ≤ statusContribution c := hcontrib_nonneg c hcm
    have hwn : (0 : ℚ) ≤ 4 - (c.priority : ℚ) := by
      rcases hp c hcm with h | h | h <;> rw [h] <;> norm_num
    nlinarith
  have hge : 0 ≤ (l.map (fun c => statusContribution c * ((4 : ℚ) - (c.priority : ℚ)))).sum := by
    apply List.sum_nonneg
    intro x hx
    rcases List.mem_map.mp hx with ⟨c, hcm, rfl⟩
    have hwn : (0 : ℚ) ≤ 4 - (c.priority : ℚ) := by
      rcases hp c hcm with h | h | h <;> rw [h] <;> norm_num
    exact mul_nonneg (hcontrib_nonneg c hcm) hwn
  have hmean0 : 0 ≤ (l.map (fun c => statusContribution c * ((4 : ℚ) - (c.priority : ℚ)))).sum
      / (l.map (fun c => (4 : ℚ) - (c.priority : ℚ))).sum :=
    div_nonneg hge (le_of_lt hwpos)
  have hmean1 : (l.map (fun c => statusContribution c * ((4 : ℚ) - (c.priority : ℚ)))).sum
      / (l.map (fun c => (4 : ℚ) - (c.priority : ℚ))).sum ≤ 1 :=
    (div_le_one hwpos).mpr hle
  have heq : calculateAccuracyScore l = round3 (specWeightedMean l) := by
    unfold calculateAccuracyScore specWeightedMean
    rw [if_neg hne]
    dsimp only
    rw [if_pos hwpos]
    rw [hws, hcs]
  refine ⟨heq, ?_, ?_⟩
  · rw [show calculateAccuracyScore l
        = round3 ((l.map (fun c => statusContribution c * ((4 : ℚ) - (c.priority : ℚ)))).sum
          / (l.map (fun c => (4 : ℚ) - (c.priority : ℚ))).sum) by
      unfold calculateAccuracyScore
      rw [if_neg hne]
      dsimp only
      rw [if_pos hwpos]]
    exact (round3_mem_unit hmean0 hmean1).1
  · rw [show calculateAccuracyScore l
        = round3 ((l.map (fun c => statusContribution c * ((4 : ℚ) - (c.priority : ℚ)))).sum
          / (l.map (fun c => (4 : ℚ) - (c.priority : ℚ))).sum) by
      unfold calculateAccuracyScore
      rw [if_neg hne]
      dsimp only
      rw [if_pos hwpos]]
    exact (round3_mem_unit hmean0 hmean1).2

attribute [local semireducible] Rat.mul Rat.inv Rat.add Rat.sub in
/-- Witness for `claim_C5_accuracy_amended` at the concrete two-claim list. -/
theorem claim_C5_accuracy_amended_witness :
    calculateAccuracyScore c5claims = round3 (specWeightedMean c5claims) ∧
      0 ≤ calculateAccuracyScore c5claims ∧
      calculateAccuracyScore c5claims ≤ 1 :=
  claim_C5_accuracy_amended c5claims (by decide) (by decide) (by decide)

/-- The first-match-wins per-number score of the code equals the sequential
spec reading. -/
theorem numScoreOne_eq_seq (c : Str) :
    ∀ rs : List Str, numScoreOne rs c = specNumScoreSeq c rs := by
  intro rs
  induction rs with
  | nil => rfl
  | cons r rest ih =>
    by_cases h1 : cleanNum c = cleanNum r
    · rw [numScoreOne, List.find?_cons_of_pos _ (by simp [h1])]
      dsimp only
      rw [if_pos h1]
      conv_rhs => rw [specNumScoreSeq]
      rw [if_pos h1]
    · by_cases h2 : isCloseNumericalMatch (cleanNum c) (cleanNum r) = true
      · rw [numScoreOne, List.find?_cons_of_pos _ (by simp [h1, h2])]
        dsimp only
        rw [if_neg h1]
        conv_rhs => rw [specNumScoreSeq]
        rw [if_neg h1, if_pos h2]
      · rw [numScoreOne, List.find?_cons_of_neg _ (by simp [h1, h2])]
        conv_rhs => rw [specNumScoreSeq]
        rw [if_neg h1, if_neg h2, ← ih]
        rw [numScoreOne]

attribute [local semireducible] Rat.mul Rat.inv Rat.add Rat.sub in
/-- Claim **C6** counterexample.  With claim number `"20"` and evidence numbers
`["19", "20"]`, the evidence list contains an exact match, so the claim's
reading gives the number 1.0 — but the code stops at the earlier close match
`"19"` and scores 0.7. -/
theorem claim_C6_counterexample :
    calcNumberMatchScore [strL "20"] [strL "19", strL "20"] = 7/10 ∧
      specNumberMatchScoreClaim [strL "20"] [strL "19", strL "20"] = 1 ∧
      calcNumberMatchScore [strL "20"] [strL "19", strL "20"]
        ≠ specNumberMatchScoreClaim [strL "20"] [strL "19", strL "20"] := by
  refine ⟨by decide, by decide, by decide⟩

/-- Claim **C6** (`functional_correctness`, corrected).  Amended claim: the
number-overlap sub-score is the average over claim numbers of a per-number
score decided by the **first evidence number in list order** that matches
exactly (1.0) or closely (0.7) after stripping non-digit, non-dot characters;
close means absolute difference at most 1 when the larger value is at most
10, relative difference at most 10% otherwise; the sub-score is 0 when either
side has no numbers. -/
theorem claim_C6_number_overlap_amended (cs rs : List Str) :
    calcNumberMatchScore cs rs = specNumberMatchScoreSeq cs rs := by
  unfold calcNumberMatchScore specNumberMatchScoreSeq
  have hmap : cs.map (numScoreOne rs) = cs.map (fun c => specNumScoreSeq c rs) :=
    List.map_congr_left (fun c _ => numScoreOne_eq_seq c rs)
  by_cases hcs : cs = []
  · simp [hcs]
  · by_cases hrs : rs = []
    · simp [hcs, hrs]
    · simp [hcs, hrs, hmap]

/-- The similarity ratio is non-negative. -/
theorem similarityScore_nonneg (a b : Str) : 0 ≤ similarityScore a b := by
  unfold similarityScore
  dsimp only
  split
  · norm_num
  · positivity

/-- A per-number score is non-negative. -/
theorem numScoreOne_nonneg (rs : List Str) (c : Str) : 0 ≤ numScoreOne rs c := by
  unfold numScoreOne
  rcases List.find? (fun r =>
    cleanNum c = cleanNum r || isCloseNumericalMatch (cleanNum c) (cleanNum r))
    rs with _ | r
  · norm_num
  · dsimp only
    split <;> norm_num

/-- The number-overlap sub-score is non-negative. -/
theorem calcNumberMatchScore_nonneg (cs rs : List Str) :
    0 ≤ calcNumberMatchScore cs rs := by
  unfold calcNumberMatchScore
  split
  · norm_num
  · apply div_nonneg _ (by positivity)
    apply List.sum_nonneg
    intro x hx
    rcases List.mem_map.mp hx with ⟨c, _, rfl⟩
    exact numScoreOne_nonneg rs c

/-- Keyword-style ratios never exceed 1: intersection over the claim list. -/
theorem card_inter_div_length_le_one (l : List Str) (s : Finset Str)
    (h : l ≠ []) : ((l.toFinset ∩ s).card : ℚ) / (l.length : ℚ) ≤ 1 := by
  have hlen : 0 < (l.length : ℚ) := by
    have := List.length_pos.mpr h
    exact_mod_cast this
  rw [div_le_one hlen]
  have h1 : (l.toFinset ∩ s).card ≤ l.toFinset.card :=
    Finset.card_le_card Finset.inter_subset_left
  have h2 : l.toFinset.card ≤ l.length := l.toFinset_card_le
  exact_mod_cast le_trans h1 h2

/-- Intersection over a finset's own cardinality. -/
theorem card_inter_div_card_le_one (a b : Finset Str) (h : 0 < a.card) :
    ((a ∩ b).card : ℚ) / (a.card : ℚ) ≤ 1 := by
  have hc : (0 : ℚ) < (a.card : ℚ) := by exact_mod_cast h
  rw [div_le_one hc]
  exact_mod_cast Finset.card_le_card Finset.inter_subset_left

/-- The citation matcher's per-source score never exceeds 1.2 (0.3 + 0.4 +
0.3 + 0.2). -/
theorem sourceScore_le (claim : CClaim) (src : CSource) :
    sourceScore claim src ≤ 6/5 := by
  unfold sourceScore
  dsimp only
  split_ifs
  all_goals
    try have hr1 : ((extractKeywordsC (toLowerStr claim.text)).toFinset ∩
        (extractKeywordsC (toLowerStr src.text)).toFinset).card
        / ((extractKeywordsC (toLowerStr claim.text)).length : ℚ) ≤ 1 :=
      card_inter_div_length_le_one _ _ (by assumption)
  all_goals
    try have hr2 : (((splitWhite (toLowerStr claim.text)).toFinset ∩
        (splitWhite (toLowerStr src.text)).toFinset).card : ℚ)
        / (((splitWhite (toLowerStr claim.text)).toFinset).card : ℚ) ≤ 1 :=
      card_inter_div_card_le_one _ _ (by assumption)
  all_goals linarith

/-- Any match returned by `_find_best_source_match` carries a confidence
strictly above the 0.3 floor and at most 1.2. -/
theorem findBestSourceMatch_bounds (claim : CClaim) (rc : List CSource)
    (m : Matched) (h : findBestSourceMatch claim rc = some m) :
    3/10 < m.confidence ∧ m.confidence ≤ 6/5 := by
  unfold findBestSourceMatch at h
  have H := foldlPreserve
    (fun acc : Option Matched × ℚ =>
      ∀ m', acc.1 = some m' → 3/10 < m'.confidence ∧ m'.confidence ≤ 6/5)
    (fun acc src =>
      let score := sourceScore claim src
      if score > acc.2 ∧ score > 3/10 then (some ⟨src, score⟩, score) else acc)
    ?_ rc (none, 0) ?_
  · exact H m h
  · intro s a hs
    dsimp only
    split_ifs with hcond
    · intro m' hm'
      have hm'' : m' = ⟨a, sourceScore claim a⟩ := (Option.some.inj hm').symm
      rw [hm'']
      exact ⟨hcond.2, sourceScore_le claim a⟩
    · exact hs
  · intro m' hm'
    cases hm'

attribute [local semireducible] Rat.mul Rat.inv Rat.add Rat.sub in
/-- Claim **C1** counterexample.  On a claim and an identically-worded statistic,
`_find_best_source_match` attaches confidence 1.2 > 1. -/
theorem claim_C1_counterexample :
    (findBestSourceMatch acmeClaim [acmeSource]).map Matched.confidence
        = some (6/5) ∧
      ¬ ((6/5 : ℚ) ≤ 1) := by
  constructor
  · decide
  · norm_num

/-- Claim **C1** (`invariants`, corrected).  Amended claim: the fact-check scorer
`_calculate_match_confidence` always returns a confidence in [0, 1]; the
citation matcher `_find_best_source_match` attaches confidences in the
interval (0.3, 1.2] — never negative, but possibly greater than 1 (up to
0.3 + 0.4 + 0.3 + 0.2). -/
theorem claim_C1_confidence_bounds_amended (claim : FCClaim) (item : RItem)
    (cc : CClaim) (rc : List CSource) (m : Matched) :
    (0 ≤ calcMatchConfidence claim item ∧ calcMatchConfidence claim item ≤ 1) ∧
    (findBestSourceMatch cc rc = some m →
      3/10 < m.confidence ∧ m.confidence ≤ 6/5) := by
  refine ⟨⟨?_, ?_⟩, fun h => findBestSourceMatch_bounds cc rc m h⟩
  · have h1 : 0 ≤ similarityScore (toLowerStr claim.claim)
        (toLowerStr item.text) := similarityScore_nonneg _ _
    have h2 : 0 ≤ calcNumberMatchScore claim.extractedNumbers item.numbers :=
      calcNumberMatchScore_nonneg _ _
    have h3 : (0 : ℚ) ≤ ((claim.keywords.toFinset ∩
        item.keywords.toFinset).card : ℚ) / (claim.keywords.toFinset.card : ℚ) := by
      positivity
    unfold calcMatchConfidence
    dsimp only
    refine le_min ?_ (by norm_num)
    split_ifs <;> linarith
  · unfold calcMatchConfidence
    dsimp only
    exact min_le_right _ 1

attribute [local semireducible] Rat.mul Rat.inv Rat.add Rat.sub in
/-- Witness for `claim_C1_confidence_bounds_amended` at concrete inputs. -/
theorem claim_C1_confidence_bounds_amended_witness :
    (0 ≤ calcMatchConfidence fcClaimW rItemW ∧
      calcMatchConfidence fcClaimW rItemW ≤ 1) ∧
    (3/10 < (Matched.mk acmeSource (6/5)).confidence ∧
      (Matched.mk acmeSource (6/5)).confidence ≤ 6/5) := by
  have h := claim_C1_confidence_bounds_amended fcClaimW rItemW acmeClaim
    [acmeSource] (Matched.mk acmeSource (6/5))
  exact ⟨h.1, h.2 (by decide)⟩

/-- The invariant of `match_claims_to_sources`: a matched claim's confidence
passed the 0.3 floor, an unmatched claim's confidence is exactly 0. -/
theorem matchClaims_invariant (claims : List CClaim) (rd : ResearchData)
    (c : MClaim) (hc : c ∈ matchClaimsToSources claims rd) :
    (c.matchedSource.isSome = true → 3/10 < c.confidence) ∧
    (c.matchedSource = none → c.confidence = 0) := by
  unfold matchClaimsToSources at hc
  dsimp only at hc
  rcases List.mem_map.mp hc with ⟨c0, _, rfl⟩
  rcases hb : findBestSourceMatch c0 (buildResearchContentC rd) with _ | m0 <;>
    dsimp only
  · constructor
    · intro h
      simp at h
    · intro _
      rfl
  · constructor
    · intro _
      exact (findBestSourceMatch_bounds c0 (buildResearchContentC rd) m0 hb).1
    · intro h
      simp at h

/-- Every cited claim of `format_citations` extends one of the matched
claims it was given. -/
theorem formatCitations_toMClaim (mcs : List MClaim) (rd : ResearchData)
    (style : String) (now : NowParams) (c' : CitedClaim)
    (h : c' ∈ (formatCitations mcs rd style now).citedClaims) :
    ∃ c ∈ mcs, c'.toMClaim = c := by
  unfold formatCitations at h
  dsimp only at h
  rcases List.mem_map.mp h with ⟨c, hc, rfl⟩
  refine ⟨c, hc, ?_⟩
  rcases c.matchedSource with _ | m
  · rfl
  · dsimp only
    split_ifs with h1
    · rcases (List.find? _ _ : Option (Str × Nat)) with _ | p <;> rfl
    · rfl

/-- Claim **C10** (`invariants`, confirmed).  A match attached by
`_find_best_source_match` always has confidence strictly above 0.3; in
`match_claims_to_sources` output a matched claim's confidence is above 0.3
and an unmatched claim's confidence is exactly 0; consequently every claim
with a matched source satisfies the `confidence > 0.3` citation gate tested
by `format_citations`. -/
theorem claim_C10_match_gate :
    (∀ (cc : CClaim) (rc : List CSource) (m : Matched),
      findBestSourceMatch cc rc = some m → 3/10 < m.confidence) ∧
    (∀ (claims : List CClaim) (rd : ResearchData) (c : MClaim),
      c ∈ matchClaimsToSources claims rd →
      (c.matchedSource.isSome = true → 3/10 < c.confidence) ∧
      (c.matchedSource = none → c.confidence = 0)) ∧
    (∀ (claims : List CClaim) (rd : ResearchData) (style : String)
      (now : NowParams) (c' : CitedClaim),
      c' ∈ (formatCitations (matchClaimsToSources claims rd) rd style
        now).citedClaims →
      c'.matchedSource.isSome = true → 3/10 < c'.confidence) := by
  refine ⟨?_, ?_, ?_⟩
  · intro cc rc m h
    exact (findBestSourceMatch_bounds cc rc m h).1
  · intro claims rd c hc
    exact matchClaims_invariant claims rd c hc
  · intro claims rd style now c' h hs
    rcases formatCitations_toMClaim _ rd style now c' h with ⟨c, hc, hproj⟩
    have h1 : c'.matchedSource = c.matchedSource :=
      congrArg MClaim.matchedSource hproj
    have h2 : c'.confidence = c.confidence :=
      congrArg MClaim.confidence hproj
    rw [h2]
    exact (matchClaims_invariant claims rd c hc).1 (by rw [← h1]; exact hs)

attribute [local semireducible] Rat.mul Rat.inv Rat.add Rat.sub in
/-- Witness for `claim_C10_match_gate` on the one-claim Acme pipeline. -/
theorem claim_C10_match_gate_witness :
    (3/10 < (Matched.mk acmeSource (6/5)).confidence) ∧
    (3/10 < mClaimW.confidence) ∧ (3/10 < citedClaimW.confidence) := by
  have h := claim_C10_match_gate
  refine ⟨h.1 acmeClaim [acmeSource] (Matched.mk acmeSource (6/5)) (by decide),
    (h.2.1 [acmeClaim] acmeRD mClaimW (by decide)).1 (by decide),
    h.2.2 [acmeClaim] acmeRD "apa" now0 citedClaimW (by decide) (by decide)⟩

/-- The status bands of `_verify_single_claim` are decided on the raw best
confidence (stored in `verification_details.best_match_confidence`); the
reported confidence is its 3-decimal rounding. -/
theorem verifySingleClaim_bands (a : FCClaim) (rc : List RItem) :
    ((verifySingleClaim a rc).status = "verified" ↔
      confidenceThreshold ≤ (verifySingleClaim a rc).details.bestMatchConfidence) ∧
    ((verifySingleClaim a rc).status = "needs_review" ↔
      2/5 ≤ (verifySingleClaim a rc).details.bestMatchConfidence ∧
      (verifySingleClaim a rc).details.bestMatchConfidence < confidenceThreshold) ∧
    ((verifySingleClaim a rc).status = "unsupported" ↔
      (verifySingleClaim a rc).details.bestMatchConfidence < 2/5) ∧
    (verifySingleClaim a rc).confidence
      = round3 (verifySingleClaim a rc).details.bestMatchConfidence := by
  unfold verifySingleClaim
  dsimp only
  by_cases h1 : (bestResearchMatch a rc).2 ≥ confidenceThreshold
  · rw [if_pos h1]
    refine ⟨⟨fun _ => h1, fun _ => rfl⟩, ?_, ?_, rfl⟩
    · exact iff_of_false (by decide) (fun hh => absurd hh.2 (not_lt.mpr h1))
    · exact iff_of_false (by decide)
        (not_lt.mpr (le_trans (by norm_num [confidenceThreshold]) h1))
  · rw [if_neg h1]
    by_cases h2 : (bestResearchMatch a rc).2 ≥ 2/5
    · rw [if_pos h2]
      refine ⟨iff_of_false (by decide) h1,
        ⟨fun _ => ⟨h2, not_le.mp h1⟩, fun _ => rfl⟩,
        iff_of_false (by decide) (not_lt.mpr h2), rfl⟩
    · rw [if_neg h2]
      refine ⟨iff_of_false (by decide) h1,
        iff_of_false (by decide) (fun hh => absurd hh.1 h2),
        ⟨fun _ => not_le.mp h2, fun _ => rfl⟩, rfl⟩

set_option maxRecDepth 1000000 in
attribute [local semireducible] Rat.mul Rat.inv Rat.add Rat.sub in
/-- Claim **C2** counterexample.  On `c2content` against `c2research`, the single
claim in the `verify_facts` output has status `needs_review` while its
reported confidence is exactly 0.7 (the raw best confidence 1413/2020 ≈
0.69950 rounds up to 0.7), contradicting "every needs-review claim has
reported confidence strictly below 0.7". -/
theorem claim_C2_counterexample :
    statusConfList (verifyFacts c2content c2research)
        = [("needs_review", (7 : ℚ)/10)] ∧
      ¬ ((7 : ℚ)/10 < 7/10) := by
  constructor
  · decide
  · norm_num

/-- Claim **C2** (`invariants`, corrected).  Amended claim: the status bands of
every claim in the `verify_facts` output are decided on the **raw**
best-match confidence (reported in `verification_details`); the claim-level
`confidence` field is that raw value rounded half-to-even to three decimals,
so a needs-review claim can report a rounded confidence of exactly 0.7. -/
theorem claim_C2_bands_amended (content : Str) (rd : ResearchData)
    (c : VClaim) (hc : c ∈ (verifyFacts content rd).verifiedClaims) :
    (c.status = "verified" ↔
      confidenceThreshold ≤ c.details.bestMatchConfidence) ∧
    (c.status = "needs_review" ↔
      2/5 ≤ c.details.bestMatchConfidence ∧
      c.details.bestMatchConfidence < confidenceThreshold) ∧
    (c.status = "unsupported" ↔ c.details.bestMatchConfidence < 2/5) ∧
    c.confidence = round3 c.details.bestMatchConfidence := by
  unfold verifyFacts at hc
  by_cases h1 : researchDataEmpty rd = true
  · rw [if_pos h1] at hc
    simp at hc
  · rw [if_neg h1] at hc
    dsimp only at hc
    by_cases h2 : extractFactualClaims content = []
    · rw [if_pos h2] at hc
      simp at hc
    · rw [if_neg h2] at hc
      dsimp only at hc
      rcases List.mem_map.mp hc with ⟨a, _, rfl⟩
      exact verifySingleClaim_bands a _

set_option maxRecDepth 1000000 in
attribute [local semireducible] Rat.mul Rat.inv Rat.add Rat.sub in
/-- Witness for `claim_C2_bands_amended` at the claim extracted from
`c2content`. -/
theorem claim_C2_bands_amended_witness :
    (c2claim0.status = "verified" ↔
      confidenceThreshold ≤ c2claim0.details.bestMatchConfidence) ∧
    (c2claim0.status = "needs_review" ↔
      2/5 ≤ c2claim0.details.bestMatchConfidence ∧
      c2claim0.details.bestMatchConfidence < confidenceThreshold) ∧
    (c2claim0.status = "unsupported" ↔
      c2claim0.details.bestMatchConfidence < 2/5) ∧
    c2claim0.confidence = round3 c2claim0.details.bestMatchConfidence :=
  claim_C2_bands_amended c2content c2research c2claim0 (by decide)

attribute [local semireducible] Rat.mul Rat.inv Rat.add Rat.sub in
/-- Claim **C7** counterexample.  With no research data, `verify_facts` reports
accuracy 0.0 — even for content with zero extractable claims, where the
claim promises 1.0 — and reports `total_claims = 0` even when the content
does contain claims, so the reported `totalClaims` is never greater than 0
in that branch. -/
theorem claim_C7_counterexample :
    (verifyFacts noClaimContent emptyRD).accuracyScore = 0 ∧
    extractFactualClaims noClaimContent = [] ∧
    ¬ ((0 : ℚ) = 1) ∧
    (verifyFacts fcTwoClaims emptyRD).statistics.totalClaims = 0 ∧
    extractFactualClaims fcTwoClaims ≠ [] := by
  refine ⟨by decide, by decide, by norm_num, by decide, by decide⟩

/-- Claim **C7** (`error_handling`, corrected).  Amended claim: when the research
data has no statistics, no expert quotes and no results, `verify_facts`
returns accuracy 0.0 with an explanatory recommendation and reports
`total_claims = 0` (claims are never counted in this branch, even for
content containing claims); only when research data is present does a
zero-claim extraction yield accuracy 1.0. -/
theorem claim_C7_degenerate_amended (content : Str) (rd : ResearchData) :
    (researchDataEmpty rd = true →
      (verifyFacts content rd).accuracyScore = 0 ∧
      (verifyFacts content rd).statistics.totalClaims = 0 ∧
      (verifyFacts content rd).recommendations
        = ["No research data available for fact verification"]) ∧
    (researchDataEmpty rd = false → extractFactualClaims content = [] →
      (verifyFacts content rd).accuracyScore = 1) := by
  constructor
  · intro h
    unfold verifyFacts
    rw [if_pos h]
    exact ⟨rfl, rfl, rfl⟩
  · intro h hcl
    unfold verifyFacts
    rw [if_neg (by rw [h]; exact Bool.false_ne_true)]
    dsimp only
    rw [if_pos hcl]

attribute [local semireducible] Rat.mul Rat.inv Rat.add Rat.sub in
/-- Witness for `claim_C7_degenerate_amended` at concrete inputs: claimless
content with evidence present yields 1.0; empty evidence yields 0.0. -/
theorem claim_C7_degenerate_amended_witness :
    (verifyFacts noClaimContent oneStatRD).accuracyScore = 1 ∧
    (verifyFacts noClaimContent emptyRD).accuracyScore = 0 := by
  refine ⟨(claim_C7_degenerate_amended noClaimContent oneStatRD).2
    (by decide) (by decide),
    ((claim_C7_degenerate_amended noClaimContent emptyRD).1 (by decide)).1⟩

/-- Claim **C8** (`error_handling`, confirmed).  `add_citations` always returns a
well-formed result record (the embedding is a total function into
`CitResult`): with no statistics, expert quotes or results it returns the
original content unchanged with `citation_count = 0` and an error-flagged
metadata object, and whenever the processing body signals an error the
result is the original content with the error recorded in the metadata
instead of a propagated exception. -/
theorem claim_C8_failure_policy (content : Str) (rd : ResearchData)
    (style : String) (now : NowParams) :
    (researchDataEmpty rd = true →
      addCitations content rd style now = emptyResearchCitResult content ∧
      (addCitations content rd style now).citedContent = content ∧
      (addCitations content rd style now).citationCount = 0 ∧
      (addCitations content rd style now).meta.error
        = some "No research data available") ∧
    (researchDataEmpty rd = false →
      ∀ e, addCitationsBody content rd style now = .error e →
        addCitations content rd style now = errorCitResult content e) := by
  constructor
  · intro h
    unfold addCitations
    rw [if_pos h]
    exact ⟨rfl, rfl, rfl, rfl⟩
  · intro h e he
    unfold addCitations
    rw [if_neg (by rw [h]; exact Bool.false_ne_true), he]

/-- Witness for `claim_C8_failure_policy` on the all-empty research bundle. -/
theorem claim_C8_failure_policy_witness :
    addCitations noClaimContent emptyRD "apa" now0
        = emptyResearchCitResult noClaimContent ∧
      (addCitations noClaimContent emptyRD "apa" now0).citationCount = 0 := by
  have h := (claim_C8_failure_policy noClaimContent emptyRD "apa" now0).1
    (by decide)
  exact ⟨h.1, h.2.2.1⟩

/-- The fact-check extractor's positional window: any two accepted claims
start at least 10 characters apart. -/
theorem fcExtract_pairwise (content : Str) :
    List.Pairwise (fun a b : FCClaim => 10 ≤ distNat a.startPos b.startPos)
      (extractFactualClaims content) := by
  have step1 : ∀ (p : FCPattern) (st : FCExtract) (sp : Nat × Nat),
      ((∀ c ∈ st.claims, c.startPos ∈ st.positions) ∧
        List.Pairwise (fun a b : FCClaim => 10 ≤ distNat a.startPos b.startPos)
          st.claims) →
      ((∀ c ∈ (fcProcessMatch content p st sp).claims,
          c.startPos ∈ (fcProcessMatch content p st sp).positions) ∧
        List.Pairwise (fun a b : FCClaim => 10 ≤ distNat a.startPos b.startPos)
          (fcProcessMatch content p st sp).claims) := by
    intro p st sp hP
    unfold fcProcessMatch
    dsimp only
    split_ifs with hwin hval
    · exact hP
    · constructor
      · intro c hcmem
        rcases List.mem_append.mp hcmem with hold | hnew
        · exact List.mem_append.mpr (Or.inl (hP.1 c hold))
        · rcases List.mem_singleton.mp hnew with rfl
          exact List.mem_append.mpr (Or.inr (by simp))
      · rw [List.pairwise_append]
        refine ⟨hP.2, List.pairwise_singleton _ _, ?_⟩
        intro a ha b hb
        rcases List.mem_singleton.mp hb with rfl
        have hpos : a.startPos ∈ st.positions := hP.1 a ha
        have hnot : ¬ distNat sp.1 a.startPos < 10 := by
          intro hlt
          exact hwin (List.any_eq_true.mpr
            ⟨a.startPos, hpos, decide_eq_true hlt⟩)
        show 10 ≤ distNat a.startPos sp.1
        rw [distNat_symm]
        exact not_lt.mp hnot
    · exact hP
  have main := foldlPreserve
    (fun st : FCExtract =>
      (∀ c ∈ st.claims, c.startPos ∈ st.positions) ∧
      List.Pairwise (fun a b : FCClaim => 10 ≤ distNat a.startPos b.startPos)
        st.claims)
    (fun st p => (findSpans p.re content).foldl (fcProcessMatch content p) st)
    (fun st p hst => foldlPreserve _ (fcProcessMatch content p)
      (fun s a hs => step1 p s a hs) (findSpans p.re content) st hst)
    fcPatterns ⟨[], [], 1⟩ ⟨fun c hc => absurd hc (List.not_mem_nil c),
      List.Pairwise.nil⟩
  unfold extractFactualClaims
  have hsymm : Symmetric (fun a b : FCClaim => 10 ≤ distNat a.startPos b.startPos) := by
    intro a b h
    rwa [distNat_symm]
  exact ((List.perm_insertionSort fcKeyLE _).pairwise_iff (fun h => hsymm h)).mpr main.2

/-- The citation extractor's text de-duplication: accepted claims have
pairwise distinct texts. -/
theorem citIdentify_pairwise (content : Str) :
    List.Pairwise (fun a b : CClaim => a.text ≠ b.text)
      (identifyClaimsNeedingCitations content) := by
  have step1 : ∀ (p : CPattern) (st : List CClaim × Nat) (sp : Nat × Nat),
      List.Pairwise (fun a b : CClaim => a.text ≠ b.text) st.1 →
      List.Pairwise (fun a b : CClaim => a.text ≠ b.text)
        ((fun st (sp : Nat × Nat) =>
          let t := strip (spanText content sp)
          if t.length > 20 && st.1.all (fun c => c.text ≠ t) then
            (st.1 ++
              [{ id := st.2, text := t, ctype := p.ctype,
                 startPos := sp.1, endPos := sp.2, needsCitation := true }],
             st.2 + 1)
          else st) st sp).1 := by
    intro p st sp hP
    dsimp only
    split_ifs with hcond
    · rw [List.pairwise_append]
      refine ⟨hP, List.pairwise_singleton _ _, ?_⟩
      intro a ha b hb
      rcases List.mem_singleton.mp hb with rfl
      simp only [Bool.and_eq_true] at hcond
      have := List.all_eq_true.mp hcond.2 a ha
      exact of_decide_eq_true this
    · exact hP
  have main := foldlPreserve
    (fun st : List CClaim × Nat =>
      List.Pairwise (fun a b : CClaim => a.text ≠ b.text) st.1)
    (fun st p => (findSpans p.re content).foldl
      (fun st sp =>
        let t := strip (spanText content sp)
        if t.length > 20 && st.1.all (fun c => c.text ≠ t) then
          (st.1 ++
            [{ id := st.2, text := t, ctype := p.ctype,
               startPos := sp.1, endPos := sp.2, needsCitation := true }],
           st.2 + 1)
        else st) st)
    (fun st p hst => foldlPreserve _ _
      (fun s a hs => step1 p s a hs) (findSpans p.re content) st hst)
    citPatterns ([], 1) List.Pairwise.nil
  unfold identifyClaimsNeedingCitations
  have hsymm : Symmetric (fun a b : CClaim => a.text ≠ b.text) :=
    fun a b h => h.symm
  exact ((List.perm_insertionSort _ _).pairwise_iff (fun h => hsymm h)).mpr main

attribute [local semireducible] Rat.mul Rat.inv Rat.add Rat.sub in
/-- Claim **C9** counterexample.  On `c9content` the citation extractor returns two
distinct claims (ids 1 and 2, different texts) that share start offset 0 —
there is no positional dedup window in the citation extractor. -/
theorem claim_C9_counterexample :
    ((identifyClaimsNeedingCitations c9content).map
        (fun c => (c.id, c.startPos))) = [(1, 0), (2, 0)] ∧
      distNat 0 0 < 10 := by
  constructor
  · decide
  · decide

/-- Claim **C9** (`invariants`, corrected).  Amended claim: in the fact-check
extractor any two distinct claims have start offsets at least 10 characters
apart (the first pattern to claim a position wins); the citation extractor
de-duplicates only by exact claim text — any two distinct claims it returns
have different texts, but they may share a start offset. -/
theorem claim_C9_dedup_amended :
    (∀ (content : Str) (c1 c2 : FCClaim),
      c1 ∈ extractFactualClaims content → c2 ∈ extractFactualClaims content →
      c1 ≠ c2 → 10 ≤ distNat c1.startPos c2.startPos) ∧
    (∀ (content : Str) (c1 c2 : CClaim),
      c1 ∈ identifyClaimsNeedingCitations content →
      c2 ∈ identifyClaimsNeedingCitations content →
      c1 ≠ c2 → c1.text ≠ c2.text) := by
  constructor
  · intro content c1 c2 h1 h2 hne
    exact (fcExtract_pairwise content).forall
      (fun a b h => by rwa [distNat_symm]) h1 h2 hne
  · intro content c1 c2 h1 h2 hne
    exact (citIdentify_pairwise content).forall
      (fun a b h => h.symm) h1 h2 hne

attribute [local semireducible] Rat.mul Rat.inv Rat.add Rat.sub in
/-- Witness for `claim_C9_dedup_amended` at the two concrete extractions. -/
theorem claim_C9_dedup_amended_witness :
    10 ≤ distNat fcC9a.startPos fcC9b.startPos ∧ citC9a.text ≠ citC9b.text := by
  refine ⟨claim_C9_dedup_amended.1 fcTwoClaims fcC9a fcC9b
      (by decide) (by decide) (by decide),
    claim_C9_dedup_amended.2 c9content citC9a citC9b
      (by decide) (by decide) (by decide)⟩
